import Mathlib

/-!
# GrocerStock real-time service: a shallow embedding of `server.js`

The development follows `src/backend/node_service/server.js`:

* the socket handlers registered in `io.on('connection', ...)` (lines 47-80), as a
  step function over an explicit server state (`connectedUsers` and the room table of
  the socket.io adapter);
* the hourly expiry notification service (lines 200-251), as a pure function from the
  scan time and the store contents to the list of emitted events;
* the mock AI functions `categorizeProduct` and `generateSuggestions` (lines 135-197), with
  the primitives of the runtime they call (lower-casing, date parsing, the clock) as
  parameters.

Values that the source treats dynamically (user ids, product names) are kept as
JavaScript values, because the handlers test them for truthiness and interpolate them
into room names.
-/

namespace GrocerStock

/-! ## JavaScript values -/

/-- A safe integer of JavaScript: an integer between -(2^53 - 1) and 2^53 - 1. Each of them
is a Number, and converting it to a string gives its plain decimal digits. -/
structure SafeInt where
  /-- The integer. -/
  val : Int
  /-- The integer is in the safe range. -/
  isSafe : -9007199254740991 ≤ val ∧ val ≤ 9007199254740991
  deriving DecidableEq, Repr

/-- The literal 0 as a safe integer. -/
instance : OfNat SafeInt 0 :=
  ⟨{ val := 0, isSafe := by decide }⟩

/-- The literal 1 as a safe integer. -/
instance : OfNat SafeInt 1 :=
  ⟨{ val := 1, isSafe := by decide }⟩

/-- A JavaScript primitive value, as it arrives as an event argument or as a document
field: `undefined`, `null`, a boolean, a safe integer or a string. Other numbers (fractions,
integers outside the safe range, `NaN`, the infinities), objects and arrays are not
modelled. -/
inductive JsVal where
  | undefined : JsVal
  | null : JsVal
  | bool (b : Bool) : JsVal
  | num (n : SafeInt) : JsVal
  | str (s : String) : JsVal
  deriving DecidableEq, Repr

namespace JsVal

/-- The test performed by `if (v)`: `undefined`, `null`, `false`, `0` and `''` are falsy. -/
def truthy : JsVal → Bool
  | undefined => false
  | null => false
  | bool b => b
  | num n => n.val != 0
  | str s => s != ""

/-- The string produced by interpolating a value in a template literal. A safe integer is
below 10^21 in size, so it is printed in plain decimal, with a minus sign when negative. -/
def render : JsVal → String
  | undefined => "undefined"
  | null => "null"
  | bool true => "true"
  | bool false => "false"
  | num n => toString n.val
  | str s => s

end JsVal

/-! ## `Map` with insertion order, as used by `connectedUsers` -/

/-- The entries of a JavaScript `Map`, in insertion order. -/
abbrev JsMap (K V : Type) := List (K × V)

namespace JsMap

variable {K V : Type} [DecidableEq K]

/-- The method `Map.prototype.has`. -/
def has (m : JsMap K V) (k : K) : Bool :=
  (List.lookup k m).isSome

/-- The method `Map.prototype.set`: an existing key keeps its position and gets the new value, a
new key is appended. -/
def set : JsMap K V → K → V → JsMap K V
  | [], k, v => [(k, v)]
  | (k', v') :: m, k, v => if k' = k then (k, v) :: m else (k', v') :: set m k v

/-- The method `Map.prototype.delete`. -/
def delete (m : JsMap K V) (k : K) : JsMap K V :=
  m.filter (fun e => e.1 ≠ k)

end JsMap

/-- The method `Map.prototype.get` on a map of JavaScript values: `undefined` when the key is
absent. -/
def JsMap.get {K : Type} [DecidableEq K] (m : JsMap K JsVal) (k : K) : JsVal :=
  (List.lookup k m).getD JsVal.undefined

/-! ## Server state -/

/-- The identifier `socket.id`. socket.io gives every connection an identifier that no other
connection of the server has; the model draws identifiers from a counter. -/
abbrev SocketId := Nat

/-- A room name of the socket.io adapter. -/
abbrev Room := String

/-- The state the handlers read and write. -/
structure ServerState where
  /-- The next identifier socket.io hands out. -/
  nextId : Nat
  /-- The connected sockets, the ones whose handlers can still run. -/
  sockets : List SocketId
  /-- The module-level `connectedUsers` map (line 45). -/
  connectedUsers : JsMap SocketId JsVal
  /-- The room table of the adapter: the pair `(room, id)` says socket `id` is in `room`. -/
  rooms : List (Room × SocketId)
  deriving DecidableEq, Repr

/-- The state at server start: no socket, an empty map, no room. -/
def ServerState.init : ServerState :=
  { nextId := 0, sockets := [], connectedUsers := [], rooms := [] }

/-- The call `socket.join(room)`: rooms are sets, joining a room twice adds nothing. -/
def join (rooms : List (Room × SocketId)) (room : Room) (id : SocketId) :
    List (Room × SocketId) :=
  if (room, id) ∈ rooms then rooms else rooms ++ [(room, id)]

/-- What socket.io does when a socket closes, before the `disconnect` handler runs: the
socket leaves every room. -/
def leaveAll (rooms : List (Room × SocketId)) (id : SocketId) : List (Room × SocketId) :=
  rooms.filter (fun e => e.2 ≠ id)

/-- The sockets in a room, in the order they joined. -/
def members (rooms : List (Room × SocketId)) (room : Room) : List SocketId :=
  (rooms.filter (fun e => e.1 = room)).map Prod.snd

/-- The room name of the inventory channel of a user id: the template literal at lines 52
and 62. -/
def inventoryRoom (userId : JsVal) : Room :=
  "inventory-" ++ userId.render

/-- The room name of the expiry channel of a user id: the template literal at lines 69 and
240. -/
def expiryRoom (userId : JsVal) : Room :=
  "expiry-" ++ userId.render

/-- One event as received by one socket. -/
structure Delivery (P : Type) where
  /-- The receiving socket. -/
  socket : SocketId
  /-- The event name. -/
  event : String
  /-- The payload. -/
  data : P
  deriving DecidableEq, Repr

/-- A call `io.to(room).emit(event, data)`, before fan-out. -/
structure Publish (P : Type) where
  /-- The addressed room. -/
  room : Room
  /-- The event name. -/
  event : String
  /-- The payload. -/
  data : P
  deriving DecidableEq, Repr

/-- The fan-out of `io.to(room).emit(event, data)`: one delivery for each socket in the room. -/
def emitTo {P : Type} (rooms : List (Room × SocketId)) (room : Room) (event : String)
    (data : P) : List (Delivery P) :=
  (members rooms room).map (fun id => { socket := id, event := event, data := data })

/-- The fan-out of a publish over the current room table. -/
def Publish.deliver {P : Type} (p : Publish P) (rooms : List (Room × SocketId)) :
    List (Delivery P) :=
  emitTo rooms p.room p.event p.data

/-! ## Socket handlers (lines 47-80) -/

/-- The handler of `join-inventory` (lines 51-55). -/
def onJoinInventory (s : ServerState) (id : SocketId) (userId : JsVal) : ServerState :=
  { s with
    rooms := join s.rooms (inventoryRoom userId) id
    connectedUsers := s.connectedUsers.set id userId }

/-- The handler of `inventory-update` (lines 58-65): the deliveries it causes; the state
is not written. -/
def onInventoryUpdate {P : Type} (s : ServerState) (id : SocketId) (data : P) :
    List (Delivery P) :=
  let userId := s.connectedUsers.get id
  if userId.truthy then emitTo s.rooms (inventoryRoom userId) "inventory-changed" data
  else []

/-- The handler of `subscribe-expiry` (lines 68-71). -/
def onSubscribeExpiry (s : ServerState) (id : SocketId) (userId : JsVal) : ServerState :=
  { s with rooms := join s.rooms (expiryRoom userId) id }

/-- The handler of `disconnect` (lines 73-79). -/
def onDisconnect (s : ServerState) (id : SocketId) : ServerState :=
  let userId := s.connectedUsers.get id
  if userId.truthy then { s with connectedUsers := s.connectedUsers.delete id }
  else s

/-- What socket.io does to its own tables when a socket closes: the socket is no longer
connected and is in no room. -/
def closeSocket (s : ServerState) (id : SocketId) : ServerState :=
  { s with sockets := s.sockets.filter (fun c => c ≠ id), rooms := leaveAll s.rooms id }

/-- The events the server reacts to. -/
inductive Event (P : Type) where
  /-- A client connects; socket.io creates a socket with a fresh identifier (line 47). -/
  | connection : Event P
  /-- The client event `join-inventory` with its argument. -/
  | joinInventory (id : SocketId) (userId : JsVal) : Event P
  /-- The client event `inventory-update` with its payload. -/
  | inventoryUpdate (id : SocketId) (data : P) : Event P
  /-- The client event `subscribe-expiry` with its argument. -/
  | subscribeExpiry (id : SocketId) (userId : JsVal) : Event P
  /-- The socket closes. -/
  | disconnect (id : SocketId) : Event P
  deriving DecidableEq, Repr

/-- One step of the event loop: the new state and the deliveries of the step. The handlers
of a socket run only while it is connected. -/
def step {P : Type} (s : ServerState) : Event P → ServerState × List (Delivery P)
  | .connection =>
      ({ s with nextId := s.nextId + 1, sockets := s.sockets ++ [s.nextId] }, [])
  | .joinInventory id userId =>
      if id ∈ s.sockets then (onJoinInventory s id userId, []) else (s, [])
  | .inventoryUpdate id data =>
      if id ∈ s.sockets then (s, onInventoryUpdate s id data) else (s, [])
  | .subscribeExpiry id userId =>
      if id ∈ s.sockets then (onSubscribeExpiry s id userId, []) else (s, [])
  | .disconnect id =>
      if id ∈ s.sockets then (onDisconnect (closeSocket s id) id, []) else (s, [])

/-- The state after a sequence of events. -/
def run {P : Type} (s : ServerState) (evs : List (Event P)) : ServerState :=
  evs.foldl (fun st ev => (step st ev).1) s

/-- The deliveries of a sequence of events, in order. -/
def deliveries {P : Type} : ServerState → List (Event P) → List (Delivery P)
  | _, [] => []
  | s, ev :: evs => (step s ev).2 ++ deliveries (step s ev).1 evs

/-! ## Expiry notification service (lines 200-251) -/

/-- A document of the `inventory` collection. Identifiers are kept as JavaScript values
(an ObjectId stands for its hexadecimal string); `expiry_date` is a BSON date in
milliseconds since the epoch. -/
structure InventoryRecord where
  /-- The primary key. -/
  _id : JsVal
  /-- The owning user. -/
  user_id : JsVal
  /-- The product the record counts. -/
  product_id : JsVal
  /-- The expiry date, in milliseconds. -/
  expiry_date : Int
  /-- The record status. -/
  status : String
  /-- The quantity in stock. -/
  quantity : Int
  deriving DecidableEq, Repr

/-- A document of the `products` collection, as far as the service reads it. -/
structure Product where
  /-- The primary key. -/
  _id : JsVal
  /-- The field `name`; `undefined` when the document has none. -/
  name : JsVal
  deriving DecidableEq, Repr

/-- A document of the `users` collection, as far as the service reads it. -/
structure User where
  /-- The primary key. -/
  _id : JsVal
  deriving DecidableEq, Repr

/-- The three collections the aggregation reads. -/
structure Store where
  /-- The collection `inventory`. -/
  inventory : List InventoryRecord
  /-- The collection `products`. -/
  products : List Product
  /-- The collection `users`. -/
  users : List User
  deriving DecidableEq, Repr

/-- An element of `expiringItems`: an inventory document with the joined product and user. -/
structure ExpiringItem extends InventoryRecord where
  /-- The joined product document. -/
  product : Product
  /-- The joined user document. -/
  user : User
  deriving DecidableEq, Repr

/-- The payload of an `expiry-alert` event (lines 240-245). -/
structure ExpiryAlertEvent where
  /-- The product name. -/
  product : JsVal
  /-- The expiry date of the record. -/
  expiry_date : Int
  /-- The number of days until expiry. -/
  days_remaining : Int
  /-- The severity. -/
  alert_level : String
  deriving DecidableEq, Repr

/-- The end of the scan window, `now.getTime() + 7 * 24 * 60 * 60 * 1000` (line 203). -/
def sevenDaysFromNow (now : Int) : Int :=
  now + 7 * 24 * 60 * 60 * 1000

/-- The `$match` stage (lines 208-211). -/
def matchStage (now : Int) (inventory : List InventoryRecord) : List InventoryRecord :=
  inventory.filter
    (fun r => r.expiry_date ≤ sevenDaysFromNow now ∧ r.expiry_date ≥ now ∧ r.status = "active")

/-- The first `$lookup` and `$unwind` (lines 213-223): one output document for each product
whose `_id` is the record's `product_id`; a record with no such product is dropped. -/
def lookupProduct (products : List Product) (docs : List InventoryRecord) :
    List (InventoryRecord × Product) :=
  docs.flatMap (fun r => (products.filter (fun p => p._id = r.product_id)).map (fun p => (r, p)))

/-- The second `$lookup` and `$unwind` (lines 224-234): one output document for each user
whose `_id` is the record's `user_id`. -/
def lookupUser (users : List User) (docs : List (InventoryRecord × Product)) :
    List ExpiringItem :=
  docs.flatMap (fun d =>
    (users.filter (fun u => u._id = d.1.user_id)).map
      (fun u => { toInventoryRecord := d.1, product := d.2, user := u }))

/-- The aggregation pipeline of lines 205-235 over the store contents. -/
def aggregate (now : Int) (db : Store) : List ExpiringItem :=
  lookupUser db.users (lookupProduct db.products (matchStage now db.inventory))

/-- The value of `Math.ceil(a / b)` for integers `a` and `b` with an exact quotient, in
integer arithmetic: the division rounds down, so the negated division of the negation
rounds up. -/
def ceilDiv (a b : Int) : Int :=
  -((-a) / b)

/-- The constant `daysRemaining` of line 238. -/
def daysRemaining (expiry_date now : Int) : Int :=
  ceilDiv (expiry_date - now) (1000 * 60 * 60 * 24)

/-- The conditional expression of line 244. -/
def alertLevel (daysRemaining : Int) : String :=
  if daysRemaining ≤ 1 then "critical" else if daysRemaining ≤ 3 then "warning" else "info"

/-- The call `io.to(...).emit('expiry-alert', ...)` of the loop body (lines 238-245). -/
def expiryAlert (now : Int) (item : ExpiringItem) : Publish ExpiryAlertEvent :=
  let daysRemaining := daysRemaining item.expiry_date now
  { room := expiryRoom item.user_id
    event := "expiry-alert"
    data :=
      { product := item.product.name
        expiry_date := item.expiry_date
        days_remaining := daysRemaining
        alert_level := alertLevel daysRemaining } }

/-- The loop `expiringItems.forEach` (lines 237-246), threading the list of calls made so
far. -/
def forEachItem (now : Int) :
    List ExpiringItem → List (Publish ExpiryAlertEvent) → List (Publish ExpiryAlertEvent)
  | [], out => out
  | item :: rest, out => forEachItem now rest (out ++ [expiryAlert now item])

/-- One run of the interval callback (lines 200-251), given the outcome of the awaited
query: a rejected query is caught and nothing is emitted. -/
def scanCycle (now : Int) (query : Except String (List ExpiringItem)) :
    List (Publish ExpiryAlertEvent) :=
  match query with
  | .ok expiringItems => forEachItem now expiringItems []
  | .error _ => []

/-- One run of the interval callback against the store contents. -/
def scanStore (now : Int) (db : Store) : List (Publish ExpiryAlertEvent) :=
  scanCycle now (.ok (aggregate now db))

/-! ## The interval callback over the server state -/

/-- One run of the interval callback over the server state: every emit call of the cycle
fans out over the room table. The callback writes neither `connectedUsers` nor the room
table, and it keeps nothing from one run to the next. -/
def scanTick (s : ServerState) (now : Int) (query : Except String (List ExpiringItem)) :
    ServerState × List (Delivery ExpiryAlertEvent) :=
  (s, (scanCycle now query).flatMap (fun p => p.deliver s.rooms))

/-! ## The interval callback with its error handling (lines 200-251) -/

/-- An element of the array `expiringItems` as the loop body reads it. The `$unwind` stages
give every element of a pipeline result a product object; `none` stands for an element
without one, on which the read `item.product.name` throws. The joined user is not read by
the loop. -/
structure ResultItem extends InventoryRecord where
  /-- The field `product`, when it holds an object. -/
  product : Option Product
  deriving DecidableEq, Repr

/-- An element of the pipeline output as the loop body reads it. -/
def ExpiringItem.toResultItem (item : ExpiringItem) : ResultItem :=
  { toInventoryRecord := item.toInventoryRecord, product := some item.product }

/-- The loop body (lines 238-245): the emit call it makes, or the message of the `TypeError`
thrown while the payload is built, before anything is emitted. -/
def tryExpiryAlert (now : Int) (item : ResultItem) : Except String (Publish ExpiryAlertEvent) :=
  let daysRemaining := daysRemaining item.expiry_date now
  match item.product with
  | none => .error "Cannot read properties of undefined (reading 'name')"
  | some product =>
    .ok
      { room := expiryRoom item.user_id
        event := "expiry-alert"
        data :=
          { product := product.name
            expiry_date := item.expiry_date
            days_remaining := daysRemaining
            alert_level := alertLevel daysRemaining } }

/-- The loop `expiringItems.forEach` (lines 237-246) with a body that can throw: the emit
calls made so far, and the error that ended the loop, if any. -/
def forEachResult (now : Int) :
    List ResultItem → List (Publish ExpiryAlertEvent) →
      List (Publish ExpiryAlertEvent) × Option String
  | [], out => (out, none)
  | item :: rest, out =>
    match tryExpiryAlert now item with
    | .ok p => forEachResult now rest (out ++ [p])
    | .error e => (out, some e)

/-- One run of the interval callback (lines 200-251) with its `try` and `catch`: the emit
calls made, and the error passed to `console.error`, if any. No error leaves the
callback. -/
def intervalCallback (now : Int) (query : Except String (List ResultItem)) :
    List (Publish ExpiryAlertEvent) × Option String :=
  match query with
  | .ok expiringItems => forEachResult now expiringItems []
  | .error e => ([], some e)

/-- One run of the interval callback over the server state: the state afterwards and the
deliveries of the run. -/
def intervalTick (s : ServerState) (now : Int) (query : Except String (List ResultItem)) :
    ServerState × List (Delivery ExpiryAlertEvent) :=
  (s, (intervalCallback now query).1.flatMap (fun p => p.deliver s.rooms))

/-- Successive runs of the interval callback (`setInterval`, line 251), each with its scan
time and the outcome of its query: the timer fires again whatever the previous run did. -/
def intervalTicks (s : ServerState) :
    List (Int × Except String (List ResultItem)) → List (Delivery ExpiryAlertEvent)
  | [] => []
  | (now, query) :: rest =>
    (intervalTick s now query).2 ++ intervalTicks (intervalTick s now query).1 rest

/-! ## Mock AI functions (lines 135-197) -/

/-- The array `categories` of lines 137-148. -/
def categories : List String :=
  [ "Fruits & Vegetables", "Dairy & Eggs", "Meat & Seafood", "Bakery & Bread",
    "Pantry & Dry Goods", "Beverages", "Frozen Foods", "Snacks & Sweets",
    "Household & Cleaning", "Personal Care" ]

/-- The names of the documents inserted into `db.categories` by `init-mongo.js`
(lines 33-44). -/
def seededCategories : List String :=
  [ "Fruits & Vegetables", "Dairy & Eggs", "Meat & Seafood", "Bakery & Bread",
    "Pantry & Dry Goods", "Beverages", "Frozen Foods", "Snacks & Sweets",
    "Household & Cleaning", "Personal Care" ]

/-- The method `String.prototype.includes`: the argument occurs as a contiguous part of the
string. -/
def includes (s part : String) : Bool :=
  decide (part.data <:+: s.data)

/-- The function `categorizeProduct` (lines 135-164). The method
`String.prototype.toLowerCase` of the runtime, which maps letters of every script, is the
parameter `toLowerCase`. Only a string has that method: on a name that is `undefined` or
`null` the read at line 151 throws, on a number or a boolean the call does; the error
carries the message of the `TypeError`. -/
def categorizeProduct (toLowerCase : String → String) (productData : Product) :
    Except String String :=
  match productData.name with
  | .str n =>
    let name := toLowerCase n
    if includes name "apple" || includes name "banana" || includes name "vegetable" then
      .ok "Fruits & Vegetables"
    else if includes name "milk" || includes name "cheese" || includes name "egg" then
      .ok "Dairy & Eggs"
    else if includes name "meat" || includes name "chicken" || includes name "fish" then
      .ok "Meat & Seafood"
    else if includes name "bread" || includes name "cake" || includes name "pastry" then
      .ok "Bakery & Bread"
    else
      .ok "Pantry & Dry Goods"
  | .undefined => .error "Cannot read properties of undefined (reading 'toLowerCase')"
  | .null => .error "Cannot read properties of null (reading 'toLowerCase')"
  | .bool _ => .error "productData.name.toLowerCase is not a function"
  | .num _ => .error "productData.name.toLowerCase is not a function"

/-- The keyword groups of the claim on `categorizeProduct`, in the order the claim gives
them, each with its category. This follows the words of the claim, to be compared with
`categorizeProduct`. -/
def specKeywordGroups : List (List String × String) :=
  [ (["apple", "banana", "vegetable"], "Fruits & Vegetables"),
    (["milk", "cheese", "egg"], "Dairy & Eggs"),
    (["meat", "chicken", "fish"], "Meat & Seafood"),
    (["bread", "cake", "pastry"], "Bakery & Bread") ]

/-- The category according to the claim, for a name already in lower case: the category
of the first group one of whose keywords occurs in it, and `Pantry & Dry Goods` when there
is no such group. This follows the words of the claim, to be compared with
`categorizeProduct`. -/
def specCategory (lowered : String) : String :=
  match specKeywordGroups.find?
      (fun g => g.1.any (fun kw => decide (kw.data <:+: lowered.data))) with
  | some g => g.2
  | none => "Pantry & Dry Goods"

/-- An element of the argument `inventory` of `generateSuggestions`: the request body gives
`expiry_date` as any JavaScript value, `quantity` as a number and `product` as an object. -/
structure InventoryItem where
  /-- The expiry date as sent by the client, if any. -/
  expiry_date : JsVal
  /-- The quantity in stock. -/
  quantity : Int
  /-- The product object. -/
  product : Product
  deriving DecidableEq, Repr

/-- The time value of `new Date(v)` in milliseconds, `none` for an invalid date. Strings go
through the date parser of the runtime, which is a parameter; a number is a time value
when it is within the range of `Date`. -/
def toTime (parse : String → Option Int) : JsVal → Option Int
  | .undefined => none
  | .null => some 0
  | .bool b => some (if b then 1 else 0)
  | .num n =>
    if -8640000000000000 ≤ n.val ∧ n.val ≤ 8640000000000000 then some n.val else none
  | .str s => parse s

/-- The expression `Math.ceil((new Date(expiry_date) - today) / (1000 * 60 * 60 * 24))` of
lines 172 and 182, for a reading `today` of the clock; `none` for `NaN`. -/
def daysDiff (parse : String → Option Int) (today : Int) (expiry_date : JsVal) : Option Int :=
  (toTime parse expiry_date).map (fun expiry => ceilDiv (expiry - today) (1000 * 60 * 60 * 24))

/-- The result of the callback of the first `filter` (lines 168-174) on an item, for the
reading `today` that line 171 takes of the clock. -/
def isExpiringSoon (parse : String → Option Int) (today : Int) (item : InventoryItem) : Bool :=
  if !item.expiry_date.truthy then false
  else
    match daysDiff parse today item.expiry_date with
    | some d => decide (d ≤ 3 ∧ d ≥ 0)
    | none => false

/-- The first `filter` (lines 168-174). The callback reads the clock at line 171, once for
each item that passes the guard of line 169. Here `clock k` is the reading of the call
number `k` of `new Date()` during the call of `generateSuggestions`, and `tick` is the
number of calls made so far. The result is the selected items and the number of calls
afterwards. -/
def filterExpiringSoon (parse : String → Option Int) (clock : Nat → Int) :
    Nat → List InventoryItem → List InventoryItem × Nat
  | tick, [] => ([], tick)
  | tick, item :: rest =>
    if item.expiry_date.truthy then
      if isExpiringSoon parse (clock tick) item then
        (item :: (filterExpiringSoon parse clock (tick + 1) rest).1,
          (filterExpiringSoon parse clock (tick + 1) rest).2)
      else filterExpiringSoon parse clock (tick + 1) rest
    else filterExpiringSoon parse clock tick rest

/-- An element of `expiring_soon` (lines 179-183). -/
structure ExpiringSoonEntry where
  /-- The product name. -/
  product : JsVal
  /-- The expiry date as received. -/
  expiry_date : JsVal
  /-- The number of days until expiry. -/
  days_remaining : Option Int
  deriving DecidableEq, Repr

/-- The first `map` (lines 179-183): line 182 reads the clock again, once for each
entry. -/
def mapExpiringSoon (parse : String → Option Int) (clock : Nat → Int) :
    Nat → List InventoryItem → List ExpiringSoonEntry
  | _, [] => []
  | tick, item :: rest =>
    { product := item.product.name
      expiry_date := item.expiry_date
      days_remaining := daysDiff parse (clock tick) item.expiry_date } ::
      mapExpiringSoon parse clock (tick + 1) rest

/-- An element of `low_stock` (lines 184-188). -/
structure LowStockEntry where
  /-- The product name. -/
  product : JsVal
  /-- The quantity in stock. -/
  current_quantity : Int
  /-- The fixed advice text. -/
  suggestion : String
  deriving DecidableEq, Repr

/-- An element of `recipe_suggestions` (lines 190-194). -/
structure RecipeSuggestion where
  /-- The recipe name. -/
  name : String
  /-- The recipe description. -/
  description : String
  /-- The product names to use. -/
  ingredients : List JsVal
  deriving DecidableEq, Repr

/-- The object returned by `generateSuggestions` (lines 178-196). -/
structure Suggestions where
  /-- The items about to expire. -/
  expiring_soon : List ExpiringSoonEntry
  /-- The items running out. -/
  low_stock : List LowStockEntry
  /-- The recipes. -/
  recipe_suggestions : List RecipeSuggestion
  deriving DecidableEq, Repr

/-- The function `generateSuggestions` (lines 166-197), with the date parser of the runtime
and the successive readings of the clock as parameters; the argument `preferences` is not
read. -/
def generateSuggestions (parse : String → Option Int) (clock : Nat → Int)
    (inventory : List InventoryItem) : Suggestions :=
  let expiringSoon := (filterExpiringSoon parse clock 0 inventory).1
  let lowStock := inventory.filter (fun item => item.quantity ≤ 2)
  { expiring_soon :=
      mapExpiringSoon parse clock (filterExpiringSoon parse clock 0 inventory).2 expiringSoon
    low_stock := lowStock.map (fun item =>
      { product := item.product.name
        current_quantity := item.quantity
        suggestion := "Consider restocking soon" })
    recipe_suggestions :=
      [ { name := "Quick Pantry Meal"
          description := "Use items that are expiring soon"
          ingredients := (expiringSoon.take 3).map (fun item => item.product.name) } ] }

/-! ## Sample data -/

/-- An item of user u1 for the product Milk with the given expiry date. -/
def sampleItem (expiry_date : Int) : ExpiringItem :=
  { _id := .str "i1", user_id := .str "u1", product_id := .str "p1"
    expiry_date := expiry_date, status := "active", quantity := 1
    product := { _id := .str "p1", name := .str "Milk" }
    user := { _id := .str "u1" } }

/-- Lower-casing of the letters A to Z, which is what `toLowerCase` does on a string of
ASCII characters; for the samples. -/
def asciiLowerCase (s : String) : String :=
  ⟨s.data.map Char.toLower⟩

/-- A clock for the samples: the call number `k` of `new Date()` reads `k` milliseconds. -/
def sampleClock (k : Nat) : Int :=
  k

/-- An element of a query result without a product object, for the samples. -/
def sampleBroken (expiry_date : Int) : ResultItem :=
  { toInventoryRecord := (sampleItem expiry_date).toInventoryRecord, product := none }

/-- A date parser for the samples: it knows one date string. -/
def sampleParse (s : String) : Option Int :=
  if s = "1970-01-03" then some 172800000 else none

/-- An inventory item for the samples. -/
def sampleStock (name : String) (expiry_date : JsVal) (quantity : Int) : InventoryItem :=
  { expiry_date := expiry_date, quantity := quantity
    product := { _id := .str "p1", name := .str name } }

/-- A store for the samples: two records of user u1, expiring at time 0 and after 300000000
milliseconds. -/
def sampleStore : Store :=
  { inventory := [(sampleItem 0).toInventoryRecord, (sampleItem 300000000).toInventoryRecord]
    products := [(sampleItem 0).product]
    users := [(sampleItem 0).user] }

/-! ## Reachable states -/

/-- The facts that hold in every state the server reaches from `ServerState.init`. -/
structure WellFormed (s : ServerState) : Prop where
  /-- No pair occurs twice in the room table. -/
  rooms_nodup : s.rooms.Nodup
  /-- Connected sockets have identifiers that were handed out. -/
  sockets_lt : ∀ id ∈ s.sockets, id < s.nextId
  /-- Registry entries have identifiers that were handed out. -/
  users_lt : ∀ id u, List.lookup id s.connectedUsers = some u → id < s.nextId
  /-- Only connected sockets are in rooms. -/
  rooms_live : ∀ e ∈ s.rooms, e.2 ∈ s.sockets
  /-- A connected socket with a registry entry is in the inventory room of the entry. -/
  bound_in_room : ∀ id u, id ∈ s.sockets → List.lookup id s.connectedUsers = some u →
    (inventoryRoom u, id) ∈ s.rooms
  /-- A registry entry with a truthy value belongs to a connected socket. -/
  truthy_live : ∀ id u, List.lookup id s.connectedUsers = some u → u.truthy = true →
    id ∈ s.sockets

/-! ## Lemmas on maps and rooms -/

theorem lookup_cons_ite {K V : Type} [DecidableEq K] (a k : K) (b : V) (es : List (K × V)) :
    List.lookup a ((k, b) :: es) = if a = k then some b else List.lookup a es := by
  rw [List.lookup_cons]
  by_cases h : a = k
  · subst h; simp
  · have hb : (a == k) = false := by simp [h]
    simp [hb, h]

theorem JsMap.lookup_set {K V : Type} [DecidableEq K] (m : JsMap K V) (k k' : K) (v : V) :
    List.lookup k' (m.set k v) = if k' = k then some v else List.lookup k' m := by
  induction m with
  | nil => simp [JsMap.set, lookup_cons_ite]
  | cons e m ih =>
    obtain ⟨a, b⟩ := e
    by_cases h1 : a = k
    · subst h1
      simp only [JsMap.set, if_true, lookup_cons_ite]
      by_cases h3 : k' = a <;> simp [h3]
    · simp only [JsMap.set, if_neg h1, lookup_cons_ite, ih]
      by_cases h3 : k' = a
      · subst h3; simp [h1]
      · simp [h3]

theorem JsMap.lookup_delete {K V : Type} [DecidableEq K] (m : JsMap K V) (k k' : K) :
    List.lookup k' (m.delete k) = if k' = k then none else List.lookup k' m := by
  induction m with
  | nil => simp [JsMap.delete]
  | cons e m ih =>
    obtain ⟨a, b⟩ := e
    unfold JsMap.delete at ih ⊢
    by_cases h1 : a = k
    · subst h1
      have hf : List.filter (fun e : K × V => decide (e.1 ≠ a)) ((a, b) :: m)
          = List.filter (fun e : K × V => decide (e.1 ≠ a)) m := by
        simp [List.filter]
      rw [hf, ih, lookup_cons_ite]
      by_cases h3 : k' = a <;> simp [h3]
    · have hf : List.filter (fun e : K × V => decide (e.1 ≠ k)) ((a, b) :: m)
          = (a, b) :: List.filter (fun e : K × V => decide (e.1 ≠ k)) m := by
        simp [List.filter, h1]
      rw [hf, lookup_cons_ite, ih, lookup_cons_ite]
      by_cases h3 : k' = a
      · subst h3; simp [h1]
      · simp [h3]

theorem JsMap.get_eq_of_lookup {K : Type} [DecidableEq K] (m : JsMap K JsVal) (k : K)
    (v : JsVal) (h : List.lookup k m = some v) : m.get k = v := by
  simp [JsMap.get, h]

theorem JsMap.get_eq_of_lookup_none {K : Type} [DecidableEq K] (m : JsMap K JsVal) (k : K)
    (h : List.lookup k m = none) : m.get k = JsVal.undefined := by
  simp [JsMap.get, h]

theorem mem_join (rooms : List (Room × SocketId)) (room : Room) (id : SocketId)
    (e : Room × SocketId) : e ∈ join rooms room id ↔ e ∈ rooms ∨ e = (room, id) := by
  unfold join
  split
  · constructor
    · intro h; exact Or.inl h
    · rintro (h | h)
      · exact h
      · subst h; assumption
  · simp

theorem nodup_join (rooms : List (Room × SocketId)) (room : Room) (id : SocketId)
    (h : rooms.Nodup) : (join rooms room id).Nodup := by
  unfold join
  split
  · exact h
  · rename_i hne
    rw [List.nodup_append]
    refine ⟨h, List.nodup_singleton _, ?_⟩
    intro a ha hb
    simp at hb
    subst hb
    exact hne ha

theorem mem_leaveAll (rooms : List (Room × SocketId)) (id : SocketId) (e : Room × SocketId) :
    e ∈ leaveAll rooms id ↔ e ∈ rooms ∧ e.2 ≠ id := by
  simp [leaveAll]

theorem mem_members (rooms : List (Room × SocketId)) (room : Room) (id : SocketId) :
    id ∈ members rooms room ↔ (room, id) ∈ rooms := by
  unfold members
  simp only [List.mem_map, List.mem_filter, decide_eq_true_eq]
  constructor
  · rintro ⟨⟨r, c⟩, ⟨hmem, hr⟩, hc⟩
    simp only at hr hc
    subst hr; subst hc; exact hmem
  · intro h
    exact ⟨(room, id), ⟨h, rfl⟩, rfl⟩

theorem nodup_members (rooms : List (Room × SocketId)) (room : Room) (h : rooms.Nodup) :
    (members rooms room).Nodup := by
  unfold members
  apply List.Nodup.map_on
  · intro a ha b hb hab
    simp only [List.mem_filter, decide_eq_true_eq] at ha hb
    exact Prod.ext (ha.2.trans hb.2.symm) hab
  · exact h.filter _

/-! ## Lemmas on the handlers -/

theorem onDisconnect_sockets (s : ServerState) (id : SocketId) :
    (onDisconnect s id).sockets = s.sockets := by
  simp only [onDisconnect]
  split <;> rfl

theorem onDisconnect_rooms (s : ServerState) (id : SocketId) :
    (onDisconnect s id).rooms = s.rooms := by
  simp only [onDisconnect]
  split <;> rfl

theorem onDisconnect_nextId (s : ServerState) (id : SocketId) :
    (onDisconnect s id).nextId = s.nextId := by
  simp only [onDisconnect]
  split <;> rfl

theorem lookup_onDisconnect (s : ServerState) (id id' : SocketId) (u : JsVal)
    (h : List.lookup id' (onDisconnect s id).connectedUsers = some u) :
    List.lookup id' s.connectedUsers = some u ∧ (id' = id → u.truthy = false) := by
  simp only [onDisconnect] at h
  split at h
  · simp only [JsMap.lookup_delete] at h
    by_cases hid : id' = id
    · simp [hid] at h
    · simp only [if_neg hid] at h
      exact ⟨h, fun e => absurd e hid⟩
  · rename_i hf
    refine ⟨h, fun e => ?_⟩
    subst e
    have hg : s.connectedUsers.get id' = u := JsMap.get_eq_of_lookup _ _ _ h
    simpa [hg] using hf

theorem lookup_onDisconnect_ne (s : ServerState) (id id' : SocketId) (hne : id' ≠ id) :
    List.lookup id' (onDisconnect s id).connectedUsers = List.lookup id' s.connectedUsers := by
  simp only [onDisconnect]
  split
  · simp [JsMap.lookup_delete, hne]
  · rfl

theorem wellFormed_init : WellFormed ServerState.init := by
  constructor <;> simp [ServerState.init]

theorem wellFormed_step {P : Type} (s : ServerState) (ev : Event P) (h : WellFormed s) :
    WellFormed (step s ev).1 := by
  cases ev with
  | connection =>
    simp only [step]
    refine ⟨h.rooms_nodup, ?_, ?_, ?_, ?_, ?_⟩
    · intro id hid
      simp only [List.mem_append, List.mem_singleton] at hid
      rcases hid with hid | hid
      · exact Nat.lt_succ_of_lt (h.sockets_lt id hid)
      · subst hid; exact Nat.lt_succ_self _
    · intro id u hl
      exact Nat.lt_succ_of_lt (h.users_lt id u hl)
    · intro e he
      exact List.mem_append_left _ (h.rooms_live e he)
    · intro id u hid hl
      simp only [List.mem_append, List.mem_singleton] at hid
      rcases hid with hid | hid
      · exact h.bound_in_room id u hid hl
      · have hlt := h.users_lt id u hl
        rw [hid] at hlt
        exact absurd hlt (Nat.lt_irrefl _)
    · intro id u hl ht
      exact List.mem_append_left _ (h.truthy_live id u hl ht)
  | joinInventory id userId =>
    simp only [step]
    split
    · rename_i hlive
      simp only [onJoinInventory]
      refine ⟨nodup_join _ _ _ h.rooms_nodup, h.sockets_lt, ?_, ?_, ?_, ?_⟩
      · intro id' u hl
        simp only [JsMap.lookup_set] at hl
        by_cases hid : id' = id
        · subst hid; exact h.sockets_lt _ hlive
        · simp only [if_neg hid] at hl
          exact h.users_lt id' u hl
      · intro e he
        rcases (mem_join _ _ _ _).1 he with he | he
        · exact h.rooms_live e he
        · subst he; exact hlive
      · intro id' u hid' hl
        simp only [JsMap.lookup_set] at hl
        by_cases hid : id' = id
        · subst hid
          simp only [if_true, Option.some.injEq] at hl
          subst hl
          exact (mem_join _ _ _ _).2 (Or.inr rfl)
        · simp only [if_neg hid] at hl
          exact (mem_join _ _ _ _).2 (Or.inl (h.bound_in_room id' u hid' hl))
      · intro id' u hl ht
        simp only [JsMap.lookup_set] at hl
        by_cases hid : id' = id
        · subst hid; exact hlive
        · simp only [if_neg hid] at hl
          exact h.truthy_live id' u hl ht
    · exact h
  | inventoryUpdate id data =>
    simp only [step]
    split <;> exact h
  | subscribeExpiry id userId =>
    simp only [step]
    split
    · rename_i hlive
      simp only [onSubscribeExpiry]
      refine ⟨nodup_join _ _ _ h.rooms_nodup, h.sockets_lt, h.users_lt, ?_, ?_, h.truthy_live⟩
      · intro e he
        rcases (mem_join _ _ _ _).1 he with he | he
        · exact h.rooms_live e he
        · subst he; exact hlive
      · intro id' u hid' hl
        exact (mem_join _ _ _ _).2 (Or.inl (h.bound_in_room id' u hid' hl))
    · exact h
  | disconnect id =>
    simp only [step]
    split
    · refine ⟨?_, ?_, ?_, ?_, ?_, ?_⟩
      · rw [onDisconnect_rooms]
        exact h.rooms_nodup.filter _
      · intro id' hid'
        rw [onDisconnect_sockets] at hid'
        rw [onDisconnect_nextId]
        simp only [closeSocket, List.mem_filter] at hid'
        exact h.sockets_lt id' hid'.1
      · intro id' u hl
        rw [onDisconnect_nextId]
        exact h.users_lt id' u (lookup_onDisconnect _ _ _ _ hl).1
      · intro e he
        rw [onDisconnect_rooms] at he
        rw [onDisconnect_sockets]
        simp only [closeSocket] at he ⊢
        have he2 := (mem_leaveAll _ _ _).1 he
        simp only [List.mem_filter, decide_eq_true_eq]
        exact ⟨h.rooms_live e he2.1, he2.2⟩
      · intro id' u hid' hl
        rw [onDisconnect_sockets] at hid'
        rw [onDisconnect_rooms]
        simp only [closeSocket, List.mem_filter, decide_eq_true_eq] at hid'
        have hl2 := (lookup_onDisconnect _ _ _ _ hl).1
        simp only [closeSocket]
        exact (mem_leaveAll _ _ _).2 ⟨h.bound_in_room id' u hid'.1 hl2, hid'.2⟩
      · intro id' u hl ht
        rw [onDisconnect_sockets]
        have hl2 := lookup_onDisconnect _ _ _ _ hl
        simp only [closeSocket, List.mem_filter, decide_eq_true_eq]
        refine ⟨h.truthy_live id' u hl2.1 ht, fun e => ?_⟩
        have := hl2.2 e
        simp [ht] at this
    · exact h

theorem run_nil {P : Type} (s : ServerState) : run s ([] : List (Event P)) = s := rfl

theorem run_cons {P : Type} (s : ServerState) (ev : Event P) (evs : List (Event P)) :
    run s (ev :: evs) = run (step s ev).1 evs := rfl

theorem run_append {P : Type} (s : ServerState) (evs evs' : List (Event P)) :
    run s (evs ++ evs') = run (run s evs) evs' := by
  simp [run, List.foldl_append]

theorem wellFormed_run {P : Type} (evs : List (Event P)) (s : ServerState) (h : WellFormed s) :
    WellFormed (run s evs) := by
  induction evs generalizing s with
  | nil => exact h
  | cons ev evs ih => exact ih _ (wellFormed_step s ev h)

theorem wellFormed_reachable {P : Type} (evs : List (Event P)) :
    WellFormed (run ServerState.init evs) :=
  wellFormed_run evs _ wellFormed_init

/-! ## Where room memberships and registry entries come from -/

theorem inventoryRoom_ne_expiryRoom (u u' : JsVal) : inventoryRoom u ≠ expiryRoom u' := by
  intro h
  have h2 := congrArg (fun s => s.data.head?) h
  simp [inventoryRoom, expiryRoom, String.data_append] at h2

theorem inventoryRoom_str_injective (a b : String)
    (h : inventoryRoom (JsVal.str a) = inventoryRoom (JsVal.str b)) : a = b := by
  have h2 := congrArg String.data h
  simp only [inventoryRoom, JsVal.render, String.data_append, List.append_cancel_left_eq] at h2
  exact String.ext h2

theorem rooms_step_origin {P : Type} (s : ServerState) (ev : Event P) (e : Room × SocketId)
    (h : e ∈ (step s ev).1.rooms) :
    e ∈ s.rooms ∨ (∃ u, ev = Event.joinInventory e.2 u ∧ inventoryRoom u = e.1) ∨
      (∃ u, ev = Event.subscribeExpiry e.2 u ∧ expiryRoom u = e.1) := by
  cases ev with
  | connection => exact Or.inl h
  | joinInventory id userId =>
    simp only [step] at h
    split at h
    · simp only [onJoinInventory] at h
      rcases (mem_join _ _ _ _).1 h with h | h
      · exact Or.inl h
      · subst h
        exact Or.inr (Or.inl ⟨userId, rfl, rfl⟩)
    · exact Or.inl h
  | inventoryUpdate id data =>
    simp only [step] at h
    split at h <;> exact Or.inl h
  | subscribeExpiry id userId =>
    simp only [step] at h
    split at h
    · simp only [onSubscribeExpiry] at h
      rcases (mem_join _ _ _ _).1 h with h | h
      · exact Or.inl h
      · subst h
        exact Or.inr (Or.inr ⟨userId, rfl, rfl⟩)
    · exact Or.inl h
  | disconnect id =>
    simp only [step] at h
    split at h
    · rw [onDisconnect_rooms] at h
      simp only [closeSocket] at h
      exact Or.inl ((mem_leaveAll _ _ _).1 h).1
    · exact Or.inl h

theorem rooms_run_origin {P : Type} (evs : List (Event P)) (s : ServerState)
    (e : Room × SocketId) (h : e ∈ (run s evs).rooms) :
    e ∈ s.rooms ∨ (∃ u, Event.joinInventory e.2 u ∈ evs ∧ inventoryRoom u = e.1) ∨
      (∃ u, Event.subscribeExpiry e.2 u ∈ evs ∧ expiryRoom u = e.1) := by
  induction evs generalizing s with
  | nil => exact Or.inl h
  | cons ev evs ih =>
    rw [run_cons] at h
    rcases ih _ h with h1 | ⟨u, hu, hr⟩ | ⟨u, hu, hr⟩
    · rcases rooms_step_origin s ev e h1 with h2 | ⟨u, hu, hr⟩ | ⟨u, hu, hr⟩
      · exact Or.inl h2
      · exact Or.inr (Or.inl ⟨u, by rw [hu]; exact List.mem_cons_self _ _, hr⟩)
      · exact Or.inr (Or.inr ⟨u, by rw [hu]; exact List.mem_cons_self _ _, hr⟩)
    · exact Or.inr (Or.inl ⟨u, List.mem_cons_of_mem _ hu, hr⟩)
    · exact Or.inr (Or.inr ⟨u, List.mem_cons_of_mem _ hu, hr⟩)

theorem users_step_origin {P : Type} (s : ServerState) (ev : Event P) (id : SocketId)
    (v : JsVal) (h : List.lookup id (step s ev).1.connectedUsers = some v) :
    (∃ w, List.lookup id s.connectedUsers = some w) ∨ ∃ u, ev = Event.joinInventory id u := by
  cases ev with
  | connection => exact Or.inl ⟨v, h⟩
  | joinInventory id' userId =>
    simp only [step] at h
    split at h
    · simp only [onJoinInventory, JsMap.lookup_set] at h
      by_cases hid : id = id'
      · subst hid
        exact Or.inr ⟨userId, rfl⟩
      · simp only [if_neg hid] at h
        exact Or.inl ⟨v, h⟩
    · exact Or.inl ⟨v, h⟩
  | inventoryUpdate id' data =>
    simp only [step] at h
    split at h <;> exact Or.inl ⟨v, h⟩
  | subscribeExpiry id' userId =>
    simp only [step] at h
    split at h <;> exact Or.inl ⟨v, h⟩
  | disconnect id' =>
    simp only [step] at h
    split at h
    · exact Or.inl ⟨v, (lookup_onDisconnect _ _ _ _ h).1⟩
    · exact Or.inl ⟨v, h⟩

theorem users_run_origin {P : Type} (evs : List (Event P)) (s : ServerState) (id : SocketId)
    (v : JsVal) (h : List.lookup id (run s evs).connectedUsers = some v) :
    (∃ w, List.lookup id s.connectedUsers = some w) ∨
      ∃ u, Event.joinInventory id u ∈ evs := by
  induction evs generalizing s v with
  | nil => exact Or.inl ⟨v, h⟩
  | cons ev evs ih =>
    rw [run_cons] at h
    rcases ih _ v h with ⟨w, hw⟩ | ⟨u, hu⟩
    · rcases users_step_origin s ev id w hw with h2 | ⟨u, hu⟩
      · exact Or.inl h2
      · exact Or.inr ⟨u, by rw [hu]; exact List.mem_cons_self _ _⟩
    · exact Or.inr ⟨u, List.mem_cons_of_mem _ hu⟩

theorem closed_step {P : Type} (s : ServerState) (ev : Event P) (id : SocketId)
    (hlt : id < s.nextId) (hdead : id ∉ s.sockets) :
    id < (step s ev).1.nextId ∧ id ∉ (step s ev).1.sockets := by
  cases ev with
  | connection =>
    simp only [step]
    refine ⟨Nat.lt_succ_of_lt hlt, ?_⟩
    simp only [List.mem_append, List.mem_singleton, not_or]
    exact ⟨hdead, Nat.ne_of_lt hlt⟩
  | joinInventory id' userId =>
    simp only [step]
    split
    · exact ⟨hlt, hdead⟩
    · exact ⟨hlt, hdead⟩
  | inventoryUpdate id' data =>
    simp only [step]
    split <;> exact ⟨hlt, hdead⟩
  | subscribeExpiry id' userId =>
    simp only [step]
    split
    · exact ⟨hlt, hdead⟩
    · exact ⟨hlt, hdead⟩
  | disconnect id' =>
    simp only [step]
    split
    · rw [onDisconnect_nextId, onDisconnect_sockets]
      refine ⟨hlt, ?_⟩
      simp only [closeSocket, List.mem_filter, not_and]
      intro hmem
      exact absurd hmem hdead
    · exact ⟨hlt, hdead⟩

theorem closed_run {P : Type} (evs : List (Event P)) (s : ServerState) (id : SocketId)
    (hlt : id < s.nextId) (hdead : id ∉ s.sockets) :
    id < (run s evs).nextId ∧ id ∉ (run s evs).sockets := by
  induction evs generalizing s with
  | nil => exact ⟨hlt, hdead⟩
  | cons ev evs ih =>
    rw [run_cons]
    exact ih _ (closed_step s ev id hlt hdead).1 (closed_step s ev id hlt hdead).2

theorem step_inventoryUpdate_falsy {P : Type} (s : ServerState) (id : SocketId) (data : P)
    (h : (s.connectedUsers.get id).truthy = false) :
    step s (Event.inventoryUpdate id data) = (s, []) := by
  simp only [step, onInventoryUpdate, h]
  split <;> simp

theorem step_inventoryUpdate_closed {P : Type} (s : ServerState) (id : SocketId) (data : P)
    (h : id ∉ s.sockets) : step s (Event.inventoryUpdate id data) = (s, []) := by
  simp only [step, if_neg h]

theorem length_filter_emit_eq_one {P : Type} (event : String) (data : P) (c : SocketId)
    (l : List SocketId) (hn : l.Nodup) (hm : c ∈ l) :
    ((l.map (fun id => ({ socket := id, event := event, data := data } : Delivery P))).filter
      (fun d => decide (d.socket = c))).length = 1 := by
  induction l with
  | nil => simp at hm
  | cons a l ih =>
    have hn2 := List.nodup_cons.1 hn
    by_cases hac : a = c
    · subst hac
      have hnil : (l.map (fun id => ({ socket := id, event := event, data := data } :
          Delivery P))).filter (fun d => decide (d.socket = a)) = [] := by
        rw [List.filter_eq_nil_iff]
        intro d hd
        simp only [List.mem_map] at hd
        obtain ⟨x, hx, rfl⟩ := hd
        simp only [decide_eq_true_eq]
        intro hxa
        exact hn2.1 (hxa ▸ hx)
      simp [List.filter, hnil]
    · have hcl : c ∈ l := by
        rcases List.mem_cons.1 hm with h | h
        · exact absurd h.symm hac
        · exact h
      simpa [List.filter, hac] using ih hn2.2 hcl

theorem step_joinInventory_live {P : Type} (s : ServerState) (id : SocketId) (userId : JsVal)
    (h : id ∈ s.sockets) :
    (step s (Event.joinInventory id userId : Event P)).1 = onJoinInventory s id userId := by
  simp only [step, if_pos h]

/-! ## The claims on the socket handlers -/

/-- C1, counterexample. A connection that sends join-inventory for user u1 and then for
user u2 is bound to u2 in the registry, yet an inventory-update published by another
connection of u1 is delivered to it. -/
theorem rejoin_receives_other_user :
    (run ServerState.init
        [(Event.connection : Event String), .joinInventory 0 (.str "u1"),
          .joinInventory 0 (.str "u2"), .connection, .joinInventory 1 (.str "u1"),
          .inventoryUpdate 1 "milk"]).connectedUsers.get 0 = JsVal.str "u2" ∧
      JsVal.str "u2" ≠ JsVal.str "u1" ∧
      (run ServerState.init
        [(Event.connection : Event String), .joinInventory 0 (.str "u1"),
          .joinInventory 0 (.str "u2"), .connection, .joinInventory 1 (.str "u1"),
          .inventoryUpdate 1 "milk"]).connectedUsers.get 1 = JsVal.str "u1" ∧
      ({ socket := 0, event := "inventory-changed", data := "milk" } : Delivery String) ∈
        deliveries ServerState.init
          [(Event.connection : Event String), .joinInventory 0 (.str "u1"),
            .joinInventory 0 (.str "u2"), .connection, .joinInventory 1 (.str "u1"),
            .inventoryUpdate 1 "milk"] := by
  decide

/-- C1, amended. After any sequence of events, an inventory-changed event published to the
inventory room of user U reaches every connected socket whose registry entry is U, and
every socket it reaches is connected and has itself sent join-inventory with a user id that
names the same room. A member of the room that sends join-inventory for another user id U2
stays a member and is then bound to U2. -/
theorem inventory_room_delivery {P : Type} (evs : List (Event P)) (U : JsVal) (data : P) :
    (∀ id, id ∈ (run ServerState.init evs).sockets →
        List.lookup id (run ServerState.init evs).connectedUsers = some U →
        ({ socket := id, event := "inventory-changed", data := data } : Delivery P) ∈
          emitTo (run ServerState.init evs).rooms (inventoryRoom U) "inventory-changed" data) ∧
      (∀ d, d ∈ emitTo (run ServerState.init evs).rooms (inventoryRoom U)
            "inventory-changed" data →
        d.socket ∈ (run ServerState.init evs).sockets ∧
          ∃ u, Event.joinInventory d.socket u ∈ evs ∧ inventoryRoom u = inventoryRoom U) ∧
      (∀ id U2, id ∈ members (run ServerState.init evs).rooms (inventoryRoom U) →
        id ∈ members (run ServerState.init (evs ++ [Event.joinInventory id U2])).rooms
            (inventoryRoom U) ∧
          List.lookup id
            (run ServerState.init (evs ++ [Event.joinInventory id U2])).connectedUsers =
            some U2) := by
  have hwf := wellFormed_reachable evs
  refine ⟨?_, ?_, ?_⟩
  · intro id hlive hbound
    simp only [emitTo, List.mem_map]
    exact ⟨id, (mem_members _ _ _).2 (hwf.bound_in_room id U hlive hbound), rfl⟩
  rotate_left
  · intro id U2 hmem
    have hroom := (mem_members _ _ _).1 hmem
    have hlive := hwf.rooms_live _ hroom
    rw [run_append, run_cons, run_nil, step_joinInventory_live _ _ _ hlive]
    refine ⟨(mem_members _ _ _).2 ?_, ?_⟩
    · exact (mem_join _ _ _ _).2 (Or.inl hroom)
    · simp [onJoinInventory, JsMap.lookup_set]
  · intro d hd
    simp only [emitTo, List.mem_map] at hd
    obtain ⟨c, hc, rfl⟩ := hd
    have hmem := (mem_members _ _ _).1 hc
    refine ⟨hwf.rooms_live _ hmem, ?_⟩
    rcases rooms_run_origin evs ServerState.init _ hmem with h | ⟨u, hu, hr⟩ | ⟨u, hu, hr⟩
    · simp [ServerState.init] at h
    · exact ⟨u, hu, hr⟩
    · exact absurd hr.symm (inventoryRoom_ne_expiryRoom U u)

/-- C1, amended, at a concrete trace: the connection that joined u1 receives the event. -/
theorem inventory_room_delivery_witness :
    ({ socket := 0, event := "inventory-changed", data := "milk" } : Delivery String) ∈
      emitTo (run ServerState.init
          [(Event.connection : Event String), .joinInventory 0 (.str "u1")]).rooms
        (inventoryRoom (.str "u1")) "inventory-changed" "milk" :=
  (inventory_room_delivery [(Event.connection : Event String), .joinInventory 0 (.str "u1")]
    (.str "u1") "milk").1 0 (by decide) (by decide)

/-- C6. An inventory-update from a connection that never sent join-inventory, or that has
disconnected, causes no delivery and leaves the whole server state as it was. -/
theorem inventoryUpdate_unbound_dropped {P : Type} (evs : List (Event P)) (id : SocketId)
    (data : P)
    (h : (∀ u, Event.joinInventory id u ∉ evs) ∨
      ∃ pre post, evs = pre ++ Event.disconnect id :: post ∧
        id ∈ (run ServerState.init pre).sockets) :
    step (run ServerState.init evs) (Event.inventoryUpdate id data) =
      (run ServerState.init evs, []) := by
  rcases h with h | ⟨pre, post, hevs, hlive⟩
  · apply step_inventoryUpdate_falsy
    cases hl : List.lookup id (run ServerState.init evs).connectedUsers with
    | none => rw [JsMap.get_eq_of_lookup_none _ _ hl]; rfl
    | some v =>
      rcases users_run_origin evs ServerState.init id v hl with ⟨w, hw⟩ | ⟨u, hu⟩
      · simp [ServerState.init] at hw
      · exact absurd hu (h u)
  · apply step_inventoryUpdate_closed
    subst hevs
    rw [run_append, run_cons]
    have hwf : WellFormed (run ServerState.init pre) := wellFormed_reachable pre
    have hlt := hwf.sockets_lt id hlive
    have hstep : id < (step (run ServerState.init pre) (Event.disconnect id : Event P)).1.nextId ∧
        id ∉ (step (run ServerState.init pre) (Event.disconnect id : Event P)).1.sockets := by
      simp only [step, if_pos hlive]
      rw [onDisconnect_nextId, onDisconnect_sockets]
      refine ⟨hlt, ?_⟩
      simp [closeSocket]
    exact (closed_run post _ id hstep.1 hstep.2).2

/-- C6 at a concrete trace: a connection that joined and then disconnected. -/
theorem inventoryUpdate_unbound_dropped_witness :
    step (run ServerState.init
        [(Event.connection : Event String), .joinInventory 0 (.str "u1"), .disconnect 0])
      (Event.inventoryUpdate 0 "milk") =
      (run ServerState.init
        [(Event.connection : Event String), .joinInventory 0 (.str "u1"), .disconnect 0], []) :=
  inventoryUpdate_unbound_dropped
    [(Event.connection : Event String), .joinInventory 0 (.str "u1"), .disconnect 0] 0 "milk"
    (Or.inr ⟨[(Event.connection : Event String), .joinInventory 0 (.str "u1")], [], rfl,
      by decide⟩)

/-- C7, counterexample. A connection bound to the empty string is a member of the room
inventory- and yet its inventory-update is delivered to nobody, itself included. -/
theorem falsy_bound_update_dropped :
    (run ServerState.init
        [(Event.connection : Event String), .joinInventory 0 (.str "")]).connectedUsers =
        [(0, JsVal.str "")] ∧
      0 ∈ members (run ServerState.init
          [(Event.connection : Event String), .joinInventory 0 (.str "")]).rooms
        (inventoryRoom (.str "")) ∧
      (step (run ServerState.init
          [(Event.connection : Event String), .joinInventory 0 (.str "")])
        (Event.inventoryUpdate 0 "milk")).2 = [] := by
  decide

/-- C7, amended. In every reachable state, an inventory-update with payload p from a
connection whose registry entry is a truthy user id U leaves the state unchanged and
delivers inventory-changed with payload p exactly once to each socket in the inventory
room of U; the sender is one of them. -/
theorem inventoryUpdate_fanout {P : Type} (evs : List (Event P)) (id : SocketId) (U : JsVal)
    (p : P) (hbound : List.lookup id (run ServerState.init evs).connectedUsers = some U)
    (hU : U.truthy = true) :
    step (run ServerState.init evs) (Event.inventoryUpdate id p) =
        (run ServerState.init evs,
          emitTo (run ServerState.init evs).rooms (inventoryRoom U) "inventory-changed" p) ∧
      (∀ d, d ∈ emitTo (run ServerState.init evs).rooms (inventoryRoom U)
            "inventory-changed" p →
        d.event = "inventory-changed" ∧ d.data = p ∧
          d.socket ∈ members (run ServerState.init evs).rooms (inventoryRoom U)) ∧
      (∀ c, c ∈ members (run ServerState.init evs).rooms (inventoryRoom U) →
        ((emitTo (run ServerState.init evs).rooms (inventoryRoom U)
            "inventory-changed" p).filter (fun d => decide (d.socket = c))).length = 1) ∧
      id ∈ members (run ServerState.init evs).rooms (inventoryRoom U) := by
  have hwf := wellFormed_reachable evs
  have hlive := hwf.truthy_live id U hbound hU
  have hget := JsMap.get_eq_of_lookup _ _ _ hbound
  refine ⟨?_, ?_, ?_, ?_⟩
  · simp only [step, if_pos hlive, onInventoryUpdate, hget, hU, if_true]
  · intro d hd
    simp only [emitTo, List.mem_map] at hd
    obtain ⟨c, hc, rfl⟩ := hd
    exact ⟨rfl, rfl, hc⟩
  · intro c hc
    exact length_filter_emit_eq_one _ _ c _ (nodup_members _ _ hwf.rooms_nodup) hc
  · exact (mem_members _ _ _).2 (hwf.bound_in_room id U hlive hbound)

/-- C7, amended, at a concrete trace: two connections of u1, one of which joined twice. -/
theorem inventoryUpdate_fanout_witness :
    step (run ServerState.init
          [(Event.connection : Event String), .joinInventory 0 (.str "u1"),
            .joinInventory 0 (.str "u1"), .connection, .joinInventory 1 (.str "u1")])
        (Event.inventoryUpdate 1 "milk") =
      (run ServerState.init
          [(Event.connection : Event String), .joinInventory 0 (.str "u1"),
            .joinInventory 0 (.str "u1"), .connection, .joinInventory 1 (.str "u1")],
        emitTo (run ServerState.init
          [(Event.connection : Event String), .joinInventory 0 (.str "u1"),
            .joinInventory 0 (.str "u1"), .connection, .joinInventory 1 (.str "u1")]).rooms
          (inventoryRoom (.str "u1")) "inventory-changed" "milk") :=
  (inventoryUpdate_fanout
    [(Event.connection : Event String), .joinInventory 0 (.str "u1"),
      .joinInventory 0 (.str "u1"), .connection, .joinInventory 1 (.str "u1")]
    1 (.str "u1") "milk" (by decide) (by decide)).1

/-- C8, counterexample. After join-inventory for u1 and then for u2 on one connection the
registry binds the connection to u2, not to u1. -/
theorem second_join_overwrites :
    (run ServerState.init
        [(Event.connection : Event String), .joinInventory 0 (.str "u1"),
          .joinInventory 0 (.str "u2")]).connectedUsers.get 0 = JsVal.str "u2" ∧
      (run ServerState.init
        [(Event.connection : Event String), .joinInventory 0 (.str "u1"),
          .joinInventory 0 (.str "u2")]).connectedUsers.get 0 ≠ JsVal.str "u1" := by
  decide

/-- C8, amended. The binding is last-write-wins: for every connected socket and user ids U1
and U2, after join-inventory for U1 followed by join-inventory for U2 the registry binds
the socket to U2. -/
theorem join_last_write_wins {P : Type} (s : ServerState) (id : SocketId) (U1 U2 : JsVal)
    (h : id ∈ s.sockets) :
    List.lookup id
        (run s [(Event.joinInventory id U1 : Event P),
          Event.joinInventory id U2]).connectedUsers = some U2 ∧
      (run s [(Event.joinInventory id U1 : Event P),
        Event.joinInventory id U2]).connectedUsers.get id = U2 := by
  have hl : List.lookup id
      (run s [(Event.joinInventory id U1 : Event P),
        Event.joinInventory id U2]).connectedUsers = some U2 := by
    simp [run, step, h, onJoinInventory, JsMap.lookup_set]
  exact ⟨hl, JsMap.get_eq_of_lookup _ _ _ hl⟩

/-- C8, amended, at a concrete state: a fresh connection that joins u1 and then u2. -/
theorem join_last_write_wins_witness :
    List.lookup 0
        (run (run ServerState.init [(Event.connection : Event String)])
          [(Event.joinInventory 0 (.str "u1") : Event String),
            Event.joinInventory 0 (.str "u2")]).connectedUsers = some (JsVal.str "u2") :=
  (join_last_write_wins (run ServerState.init [(Event.connection : Event String)]) 0
    (.str "u1") (.str "u2") (by decide)).1

/-- C9, counterexample. A join-inventory with the empty string, or with no argument, is not
ignored: it writes a registry entry and puts the socket in a room. -/
theorem empty_join_not_ignored :
    (run ServerState.init
        [(Event.connection : Event String), .joinInventory 0 (.str "")]).connectedUsers =
        [(0, JsVal.str "")] ∧
      (run ServerState.init
        [(Event.connection : Event String), .joinInventory 0 (.str "")]).rooms =
        [("inventory-", 0)] ∧
      (run ServerState.init
        [(Event.connection : Event String), .joinInventory 0 .undefined]).connectedUsers =
        [(0, JsVal.undefined)] ∧
      (run ServerState.init
        [(Event.connection : Event String), .joinInventory 0 .undefined]).rooms =
        [("inventory-undefined", 0)] ∧
      (run ServerState.init [(Event.connection : Event String)]).connectedUsers = [] ∧
      (run ServerState.init [(Event.connection : Event String)]).rooms = [] := by
  decide

/-- C9, amended. The handler of join-inventory does not look at its argument: for every
user id, empty and missing ones included, a connected socket becomes bound to it in the
registry and a member of its inventory room, no event is delivered, the entries of the
other sockets stay as they were and nothing leaves a room. -/
theorem join_binds_any_userId {P : Type} (s : ServerState) (id : SocketId) (userId : JsVal)
    (h : id ∈ s.sockets) :
    List.lookup id (step s (Event.joinInventory id userId : Event P)).1.connectedUsers =
        some userId ∧
      id ∈ members (step s (Event.joinInventory id userId : Event P)).1.rooms
        (inventoryRoom userId) ∧
      (step s (Event.joinInventory id userId : Event P)).2 = [] ∧
      (∀ id', id' ≠ id →
        List.lookup id' (step s (Event.joinInventory id userId : Event P)).1.connectedUsers =
          List.lookup id' s.connectedUsers) ∧
      (∀ e, e ∈ s.rooms → e ∈ (step s (Event.joinInventory id userId : Event P)).1.rooms) := by
  simp only [step, if_pos h, onJoinInventory]
  refine ⟨?_, ?_, trivial, ?_, ?_⟩
  · simp [JsMap.lookup_set]
  · exact (mem_members _ _ _).2 ((mem_join _ _ _ _).2 (Or.inr rfl))
  · intro id' hne
    simp [JsMap.lookup_set, hne]
  · intro e he
    exact (mem_join _ _ _ _).2 (Or.inl he)

/-- C9, amended, at a concrete state: a fresh connection that joins with the empty string. -/
theorem join_binds_any_userId_witness :
    List.lookup 0
        (step (run ServerState.init [(Event.connection : Event String)])
          (Event.joinInventory 0 (.str "") : Event String)).1.connectedUsers =
      some (JsVal.str "") :=
  (join_binds_any_userId (run ServerState.init [(Event.connection : Event String)]) 0
    (.str "") (by decide)).1

/-- C10, the code at the failing input. A connection bound to the empty string, or to the
number 0, still has its registry entry after its disconnect event, while a connection bound
to a truthy id loses it; in both cases the socket is in no room any more. -/
theorem disconnect_keeps_falsy_entry :
    (run ServerState.init
        [(Event.connection : Event String), .joinInventory 0 (.str ""),
          .disconnect 0]).connectedUsers = [(0, JsVal.str "")] ∧
      (run ServerState.init
        [(Event.connection : Event String), .joinInventory 0 (.num 0),
          .disconnect 0]).connectedUsers = [(0, JsVal.num 0)] ∧
      (run ServerState.init
        [(Event.connection : Event String), .joinInventory 0 (.str ""),
          .disconnect 0]).connectedUsers.has 0 = true ∧
      (run ServerState.init
        [(Event.connection : Event String), .joinInventory 0 (.str ""),
          .disconnect 0]).rooms = [] ∧
      (run ServerState.init
        [(Event.connection : Event String), .joinInventory 0 (.str "u1"),
          .disconnect 0]).connectedUsers = [] := by
  decide

/-! ## Lemmas on the expiry notification service -/

theorem le_ceilDiv_mul (a b : Int) (hb : 0 < b) : a ≤ ceilDiv a b * b := by
  unfold ceilDiv
  have h := Int.ediv_mul_le (-a) (Int.ne_of_gt hb)
  have h2 : -(-a / b) * b = -(-a / b * b) := by ring
  rw [h2]
  omega

theorem ceilDiv_le (a b d : Int) (hb : 0 < b) (h : a ≤ d * b) : ceilDiv a b ≤ d := by
  unfold ceilDiv
  have h2 : -d ≤ -a / b := by
    rw [Int.le_ediv_iff_mul_le hb]
    have h3 : -d * b = -(d * b) := by ring
    rw [h3]
    omega
  omega

theorem ceilDiv_eq_ceil (a b : Int) (hb : 0 < b) : ceilDiv a b = ⌈(a : ℚ) / (b : ℚ)⌉ := by
  symm
  rw [Int.ceil_eq_iff]
  have hbq : (0 : ℚ) < (b : ℚ) := by exact_mod_cast hb
  constructor
  · rw [lt_div_iff₀ hbq]
    have hlt : (ceilDiv a b - 1) * b < a := by
      by_contra hcon
      have h1 := ceilDiv_le a b (ceilDiv a b - 1) hb (not_lt.1 hcon)
      omega
    exact_mod_cast hlt
  · rw [div_le_iff₀ hbq]
    exact_mod_cast le_ceilDiv_mul a b hb

theorem forEachItem_eq (now : Int) (items : List ExpiringItem)
    (out : List (Publish ExpiryAlertEvent)) :
    forEachItem now items out = out ++ items.map (expiryAlert now) := by
  induction items generalizing out with
  | nil => simp [forEachItem]
  | cons item rest ih => simp [forEachItem, ih]

theorem scanCycle_ok (now : Int) (items : List ExpiringItem) :
    scanCycle now (.ok items) = items.map (expiryAlert now) := by
  simp [scanCycle, forEachItem_eq]

theorem mem_matchStage (now : Int) (inventory : List InventoryRecord) (r : InventoryRecord) :
    r ∈ matchStage now inventory ↔
      r ∈ inventory ∧ r.expiry_date ≤ sevenDaysFromNow now ∧ now ≤ r.expiry_date ∧
        r.status = "active" := by
  simp [matchStage]

theorem mem_aggregate (now : Int) (db : Store) (it : ExpiringItem) :
    it ∈ aggregate now db ↔
      it.toInventoryRecord ∈ matchStage now db.inventory ∧
        it.product ∈ db.products ∧ it.product._id = it.product_id ∧
        it.user ∈ db.users ∧ it.user._id = it.user_id := by
  unfold aggregate lookupUser lookupProduct
  simp only [List.mem_flatMap, List.mem_map, List.mem_filter, decide_eq_true_eq]
  constructor
  · rintro ⟨⟨r, p⟩, ⟨r', hr', p', ⟨hp', hpid⟩, heq⟩, u, ⟨hu, huid⟩, rfl⟩
    simp only [Prod.mk.injEq] at heq
    obtain ⟨rfl, rfl⟩ := heq
    exact ⟨hr', hp', hpid, hu, huid⟩
  · rintro ⟨hr, hp, hpid, hu, huid⟩
    exact ⟨(it.toInventoryRecord, it.product),
      ⟨it.toInventoryRecord, hr, it.product, ⟨hp, hpid⟩, rfl⟩, it.user, ⟨hu, huid⟩, rfl⟩

/-! ## The claims on the expiry notification service -/

/-- C2. Every alert of a scan cycle has alert_level critical when its days_remaining is at
most 1, warning when it is above 1 and at most 3, and info otherwise; an item expiring 3
days minus 1 hour after the scan time is alerted with days_remaining 3 and level warning. -/
theorem alert_level_classification (now : Int) (items : List ExpiringItem) :
    (∀ p, p ∈ scanCycle now (.ok items) →
        p.data.alert_level =
          if p.data.days_remaining ≤ 1 then "critical"
          else if 1 < p.data.days_remaining ∧ p.data.days_remaining ≤ 3 then "warning"
          else "info") ∧
      (∀ item, item ∈ items → item.expiry_date = now + 3 * 86400000 - 3600000 →
        expiryAlert now item ∈ scanCycle now (.ok items) ∧
          (expiryAlert now item).data.days_remaining = 3 ∧
          (expiryAlert now item).data.alert_level = "warning") := by
  rw [scanCycle_ok]
  constructor
  · intro p hp
    simp only [List.mem_map] at hp
    obtain ⟨it, _, rfl⟩ := hp
    simp only [expiryAlert, alertLevel]
    by_cases h1 : daysRemaining it.expiry_date now ≤ 1
    · simp [h1]
    · by_cases h3 : daysRemaining it.expiry_date now ≤ 3
      · have h4 : 1 < daysRemaining it.expiry_date now := by omega
        simp [h1, h3, h4]
      · simp [h1, h3]
  · intro item hitem hexp
    have hd : daysRemaining item.expiry_date now = 3 := by
      have hdiff : item.expiry_date - now = 255600000 := by omega
      unfold daysRemaining
      rw [hdiff]
      decide
    refine ⟨List.mem_map.2 ⟨item, hitem, rfl⟩, ?_, ?_⟩
    · simp only [expiryAlert, hd]
    · simp only [expiryAlert, hd]
      decide

/-- C2 at a concrete scan: scan time 0 and an item expiring after 3 days minus 1 hour. -/
theorem alert_level_classification_witness :
    expiryAlert 0 (sampleItem 255600000) ∈ scanCycle 0 (.ok [sampleItem 255600000]) ∧
      (expiryAlert 0 (sampleItem 255600000)).data.days_remaining = 3 ∧
      (expiryAlert 0 (sampleItem 255600000)).data.alert_level = "warning" :=
  (alert_level_classification 0 [sampleItem 255600000]).2 (sampleItem 255600000)
    (List.mem_singleton.2 rfl) (by decide)

/-- C3. For every item of a scan cycle the emitted days_remaining is the ceiling of
(expiry_date - now) / 86400000, that is the least integer d with
d * 86400000 >= expiry_date - now; an item expiring within the next 24 hours gets
days_remaining 1 and level critical. -/
theorem days_remaining_is_ceiling (now : Int) (items : List ExpiringItem) (item : ExpiringItem)
    (hitem : item ∈ items) :
    expiryAlert now item ∈ scanCycle now (.ok items) ∧
      (expiryAlert now item).data.days_remaining =
        ⌈((item.expiry_date - now : Int) : ℚ) / ((86400000 : Int) : ℚ)⌉ ∧
      item.expiry_date - now ≤ (expiryAlert now item).data.days_remaining * 86400000 ∧
      (∀ d : Int, item.expiry_date - now ≤ d * 86400000 →
        (expiryAlert now item).data.days_remaining ≤ d) ∧
      (0 < item.expiry_date - now → item.expiry_date - now ≤ 86400000 →
        (expiryAlert now item).data.days_remaining = 1 ∧
          (expiryAlert now item).data.alert_level = "critical") := by
  have hday : (1000 * 60 * 60 * 24 : Int) = 86400000 := by decide
  have hpos : (0 : Int) < 86400000 := by decide
  have hdr : (expiryAlert now item).data.days_remaining =
      ceilDiv (item.expiry_date - now) 86400000 := by
    simp only [expiryAlert, daysRemaining, hday]
  have hlow := le_ceilDiv_mul (item.expiry_date - now) 86400000 hpos
  refine ⟨?_, ?_, ?_, ?_, ?_⟩
  · rw [scanCycle_ok]
    exact List.mem_map.2 ⟨item, hitem, rfl⟩
  · rw [hdr]
    exact ceilDiv_eq_ceil _ _ hpos
  · rw [hdr]
    exact hlow
  · intro d hd
    rw [hdr]
    exact ceilDiv_le _ _ d hpos hd
  · intro h0 h1
    have hle : ceilDiv (item.expiry_date - now) 86400000 ≤ 1 :=
      ceilDiv_le _ _ 1 hpos (by omega)
    have hge : 1 ≤ ceilDiv (item.expiry_date - now) 86400000 := by
      by_contra hcon
      have : ceilDiv (item.expiry_date - now) 86400000 * 86400000 ≤ 0 := by
        have h2 : ceilDiv (item.expiry_date - now) 86400000 ≤ 0 := by omega
        nlinarith
      omega
    have heq : ceilDiv (item.expiry_date - now) 86400000 = 1 := by omega
    have hdd : daysRemaining item.expiry_date now = 1 := by
      simp only [daysRemaining, hday]
      exact heq
    refine ⟨by rw [hdr]; exact heq, ?_⟩
    simp only [expiryAlert, hdd]
    decide

/-- C3 at a concrete scan: scan time 0 and an item expiring after 12 hours. -/
theorem days_remaining_is_ceiling_witness :
    (expiryAlert 0 (sampleItem 43200000)).data.days_remaining = 1 ∧
      (expiryAlert 0 (sampleItem 43200000)).data.alert_level = "critical" :=
  (days_remaining_is_ceiling 0 [sampleItem 43200000] (sampleItem 43200000)
    (List.mem_singleton.2 rfl)).2.2.2.2 (by decide) (by decide)

/-- C4. A scan cycle alerts on exactly the inventory records whose expiry_date lies in the
closed window from now to now + 7 days, whose status is active and that join to a product
and to a user; a record expiring later, a record already expired and a record that is not
active get no alert. -/
theorem scan_window_exact (now : Int) (db : Store) (r : InventoryRecord) :
    ((∃ it, it ∈ aggregate now db ∧ it.toInventoryRecord = r ∧
          expiryAlert now it ∈ scanStore now db) ↔
        (r ∈ db.inventory ∧ now ≤ r.expiry_date ∧
          r.expiry_date ≤ now + 7 * 86400000 ∧ r.status = "active" ∧
          (∃ p, p ∈ db.products ∧ p._id = r.product_id) ∧
          (∃ u, u ∈ db.users ∧ u._id = r.user_id))) ∧
      (∀ p, p ∈ scanStore now db → ∃ it, it ∈ aggregate now db ∧ p = expiryAlert now it) ∧
      ((now + 7 * 86400000 < r.expiry_date ∨ r.expiry_date < now ∨ r.status ≠ "active") →
        ¬ ∃ it, it ∈ aggregate now db ∧ it.toInventoryRecord = r) := by
  have hseven : sevenDaysFromNow now = now + 7 * 86400000 := by
    unfold sevenDaysFromNow
    omega
  have hscan : scanStore now db = (aggregate now db).map (expiryAlert now) := by
    simp [scanStore, scanCycle_ok]
  refine ⟨⟨?_, ?_⟩, ?_, ?_⟩
  · rintro ⟨it, hit, rfl, _⟩
    rw [mem_aggregate, mem_matchStage, hseven] at hit
    obtain ⟨⟨hin, hle, hge, hst⟩, hp, hpid, hu, huid⟩ := hit
    exact ⟨hin, hge, hle, hst, ⟨it.product, hp, hpid⟩, ⟨it.user, hu, huid⟩⟩
  · rintro ⟨hin, hge, hle, hst, ⟨p, hp, hpid⟩, ⟨u, hu, huid⟩⟩
    have hit : ({ toInventoryRecord := r, product := p, user := u } : ExpiringItem) ∈
        aggregate now db := by
      rw [mem_aggregate, mem_matchStage, hseven]
      exact ⟨⟨hin, hle, hge, hst⟩, hp, hpid, hu, huid⟩
    refine ⟨{ toInventoryRecord := r, product := p, user := u }, hit, rfl, ?_⟩
    rw [hscan]
    exact List.mem_map.2 ⟨_, hit, rfl⟩
  · intro p hp
    rw [hscan] at hp
    obtain ⟨it, hit, rfl⟩ := List.mem_map.1 hp
    exact ⟨it, hit, rfl⟩
  · rintro hbad ⟨it, hit, rfl⟩
    rw [mem_aggregate, mem_matchStage, hseven] at hit
    obtain ⟨⟨_, hle, hge, hst⟩, _⟩ := hit
    rcases hbad with h | h | h
    · omega
    · omega
    · exact h hst

/-- C4 at a concrete store: a record expiring 10 days after the scan time gets no alert. -/
theorem scan_window_exact_witness :
    ¬ ∃ it, it ∈ aggregate 0
        { inventory := [(sampleItem 864000000).toInventoryRecord]
          products := [(sampleItem 864000000).product]
          users := [(sampleItem 864000000).user] } ∧
      it.toInventoryRecord = (sampleItem 864000000).toInventoryRecord :=
  (scan_window_exact 0
    { inventory := [(sampleItem 864000000).toInventoryRecord]
      products := [(sampleItem 864000000).product]
      users := [(sampleItem 864000000).user] }
    (sampleItem 864000000).toInventoryRecord).2.2 (Or.inl (by decide))

/-- C5. A scan cycle makes exactly one emit call for each item of the query result, in the
order of the result; the call for an item is addressed to the expiry room of the item's own
user_id, has the event name expiry-alert and carries the item's product name and
expiry_date unchanged. Nothing is remembered between cycles, so the same list is alerted
again in full at any other scan time. -/
theorem one_alert_per_record (now : Int) (items : List ExpiringItem) :
    (scanCycle now (.ok items)).length = items.length ∧
      (∀ i : Nat, (scanCycle now (.ok items))[i]? = (items[i]?).map (expiryAlert now)) ∧
      (∀ item : ExpiringItem,
        (expiryAlert now item).room = expiryRoom item.user_id ∧
          (expiryAlert now item).event = "expiry-alert" ∧
          (expiryAlert now item).data.product = item.product.name ∧
          (expiryAlert now item).data.expiry_date = item.expiry_date) ∧
      (∀ later : Int, (scanCycle later (.ok items)).length = items.length) := by
  refine ⟨?_, ?_, ?_, ?_⟩
  · simp [scanCycle_ok]
  · intro i
    rw [scanCycle_ok, List.getElem?_map]
  · intro item
    exact ⟨rfl, rfl, rfl, rfl⟩
  · intro later
    simp [scanCycle_ok]

/-! ## Lemmas on subscriptions and room names -/

theorem members_join_ne (rooms : List (Room × SocketId)) (room room' : Room) (id : SocketId)
    (h : room ≠ room') : members (join rooms room id) room' = members rooms room' := by
  unfold join
  split
  · rfl
  · simp [members, List.filter_append, List.filter, h]

theorem expiryRoom_str_injective (a b : String)
    (h : expiryRoom (JsVal.str a) = expiryRoom (JsVal.str b)) : a = b := by
  have h2 := congrArg String.data h
  simp only [expiryRoom, JsVal.render, String.data_append, List.append_cancel_left_eq] at h2
  exact String.ext h2

theorem inventoryRoom_eq_iff (u u' : JsVal) :
    inventoryRoom u = inventoryRoom u' ↔ u.render = u'.render := by
  constructor
  · intro h
    have h2 := congrArg String.data h
    simp only [inventoryRoom, String.data_append, List.append_cancel_left_eq] at h2
    exact String.ext h2
  · intro h
    simp [inventoryRoom, h]

theorem expiryRoom_eq_iff (u u' : JsVal) :
    expiryRoom u = expiryRoom u' ↔ u.render = u'.render := by
  constructor
  · intro h
    have h2 := congrArg String.data h
    simp only [expiryRoom, String.data_append, List.append_cancel_left_eq] at h2
    exact String.ext h2
  · intro h
    simp [expiryRoom, h]

theorem step_subscribeExpiry_live {P : Type} (s : ServerState) (id : SocketId) (userId : JsVal)
    (h : id ∈ s.sockets) :
    step s (Event.subscribeExpiry id userId : Event P) = (onSubscribeExpiry s id userId, []) := by
  simp only [step, if_pos h]

theorem inventoryUpdate_never_joined {P : Type} (evs : List (Event P)) (id : SocketId)
    (data : P) (h : ∀ u, Event.joinInventory id u ∉ evs) :
    step (run ServerState.init evs) (Event.inventoryUpdate id data) =
      (run ServerState.init evs, []) := by
  apply step_inventoryUpdate_falsy
  cases hl : List.lookup id (run ServerState.init evs).connectedUsers with
  | none => rw [JsMap.get_eq_of_lookup_none _ _ hl]; rfl
  | some v =>
    rcases users_run_origin evs ServerState.init id v hl with ⟨w, hw⟩ | ⟨u, hu⟩
    · simp [ServerState.init] at hw
    · exact absurd hu (h u)

/-! ## The claims on subscriptions and room names -/

/-- C11. For a connected socket, whatever it sent before, subscribe-expiry puts the socket in
the expiry room of the user id and delivers nothing; the registry and the members of every
inventory room stay as they were; an expiry alert for an item whose user_id renders to the
same string then reaches the socket; and when the socket never sent join-inventory its inventory-update is still
dropped. -/
theorem subscribeExpiry_effect {P : Type} (evs : List (Event P)) (id : SocketId)
    (userId : JsVal) (hlive : id ∈ (run ServerState.init evs).sockets) :
    id ∈ members (run ServerState.init (evs ++ [Event.subscribeExpiry id userId])).rooms
        (expiryRoom userId) ∧
      (step (run ServerState.init evs) (Event.subscribeExpiry id userId : Event P)).2 = [] ∧
      (run ServerState.init (evs ++ [Event.subscribeExpiry id userId])).connectedUsers =
        (run ServerState.init evs).connectedUsers ∧
      (∀ U, members (run ServerState.init (evs ++ [Event.subscribeExpiry id userId])).rooms
          (inventoryRoom U) = members (run ServerState.init evs).rooms (inventoryRoom U)) ∧
      (∀ now item, item.user_id.render = userId.render →
        ({ socket := id, event := "expiry-alert", data := (expiryAlert now item).data } :
            Delivery ExpiryAlertEvent) ∈
          (scanTick (run ServerState.init (evs ++ [Event.subscribeExpiry id userId])) now
            (.ok [item])).2) ∧
      ((∀ u, Event.joinInventory id u ∉ evs) → ∀ data : P,
        step (run ServerState.init (evs ++ [Event.subscribeExpiry id userId]))
            (Event.inventoryUpdate id data) =
          (run ServerState.init (evs ++ [Event.subscribeExpiry id userId]), [])) := by
  have hrun : run ServerState.init (evs ++ [Event.subscribeExpiry id userId]) =
      onSubscribeExpiry (run ServerState.init evs) id userId := by
    rw [run_append, run_cons, run_nil, step_subscribeExpiry_live _ _ _ hlive]
  have hmem : id ∈ members (onSubscribeExpiry (run ServerState.init evs) id userId).rooms
      (expiryRoom userId) :=
    (mem_members _ _ _).2 ((mem_join _ _ _ _).2 (Or.inr rfl))
  refine ⟨?_, ?_, ?_, ?_, ?_, ?_⟩
  · rw [hrun]; exact hmem
  · rw [step_subscribeExpiry_live _ _ _ hlive]
  · rw [hrun]; rfl
  · intro U
    rw [hrun]
    exact members_join_ne _ _ _ _ (fun h => inventoryRoom_ne_expiryRoom U userId h.symm)
  · intro now item hitem
    rw [hrun]
    simp only [scanTick, scanCycle_ok, List.map_cons, List.map_nil, List.flatMap_cons,
      List.flatMap_nil, List.append_nil, Publish.deliver, emitTo, List.mem_map]
    refine ⟨id, ?_, rfl⟩
    have hroom : (expiryAlert now item).room = expiryRoom userId :=
      (expiryRoom_eq_iff _ _).2 hitem
    rw [hroom]
    exact hmem
  · intro hnever data
    apply inventoryUpdate_never_joined
    intro u hu
    rcases List.mem_append.1 hu with h | h
    · exact hnever u h
    · simp at h

/-- C11 at a concrete trace: a connection whose only event is subscribe-expiry for u1. -/
theorem subscribeExpiry_effect_witness :
    0 ∈ members (run ServerState.init
        ([(Event.connection : Event String)] ++ [Event.subscribeExpiry 0 (.str "u1")])).rooms
      (expiryRoom (.str "u1")) :=
  (subscribeExpiry_effect [(Event.connection : Event String)] 0 (.str "u1") (by decide)).1

/-- C12, counterexample. The room names are built with a hyphen, not a colon, and the
number 1 and the string 1 are different user ids with the same inventory room and the same
expiry room. -/
theorem room_key_collision :
    inventoryRoom (.str "u1") = "inventory-u1" ∧
      inventoryRoom (.str "u1") ≠ "inventory:u1" ∧
      expiryRoom (.str "u1") = "expiry-u1" ∧
      expiryRoom (.str "u1") ≠ "expiry:u1" ∧
      JsVal.num 1 ≠ JsVal.str "1" ∧
      inventoryRoom (.num 1) = inventoryRoom (.str "1") ∧
      expiryRoom (.num 1) = expiryRoom (.str "1") := by
  decide

/-- C12, amended. The room names are inventory-<id> and expiry-<id>, with the user id
rendered as a string. On string ids both maps are injective; two ids among undefined,
null, the booleans, the safe integers and the strings share a room exactly when they
render to the same string; and no inventory room is an expiry room. -/
theorem room_keys_scoped :
    (∀ u : JsVal, inventoryRoom u = "inventory-" ++ u.render ∧
        expiryRoom u = "expiry-" ++ u.render) ∧
      (∀ a b : String, inventoryRoom (.str a) = inventoryRoom (.str b) → a = b) ∧
      (∀ a b : String, expiryRoom (.str a) = expiryRoom (.str b) → a = b) ∧
      (∀ u u' : JsVal, inventoryRoom u = inventoryRoom u' ↔ u.render = u'.render) ∧
      (∀ u u' : JsVal, expiryRoom u = expiryRoom u' ↔ u.render = u'.render) ∧
      (∀ u u' : JsVal, inventoryRoom u ≠ expiryRoom u') :=
  ⟨fun _ => ⟨rfl, rfl⟩, inventoryRoom_str_injective, expiryRoom_str_injective,
    inventoryRoom_eq_iff, expiryRoom_eq_iff, inventoryRoom_ne_expiryRoom⟩

/-- C12, amended, at concrete ids: the number 1 and the string 1 render alike and share the
inventory room. -/
theorem room_keys_scoped_witness :
    inventoryRoom (.num 1) = inventoryRoom (.str "1") :=
  (room_keys_scoped.2.2.2.1 (.num 1) (.str "1")).2 (by decide)

/-! ## More lemmas on the expiry notification service -/

theorem scanTick_fst (s : ServerState) (now : Int)
    (query : Except String (List ExpiringItem)) : (scanTick s now query).1 = s := rfl

theorem alertLevel_eq_critical_iff (d : Int) : alertLevel d = "critical" ↔ d ≤ 1 := by
  unfold alertLevel
  by_cases h1 : d ≤ 1
  · simp [h1]
  · by_cases h3 : d ≤ 3
    · simp only [if_neg h1, if_pos h3, h1, iff_false]
      decide
    · simp only [if_neg h1, if_neg h3, h1, iff_false]
      decide

theorem alertLevel_eq_warning_iff (d : Int) : alertLevel d = "warning" ↔ 1 < d ∧ d ≤ 3 := by
  unfold alertLevel
  by_cases h1 : d ≤ 1
  · have hn : ¬ (1 < d ∧ d ≤ 3) := by omega
    simp only [if_pos h1, hn, iff_false]
    decide
  · by_cases h3 : d ≤ 3
    · have hy : 1 < d ∧ d ≤ 3 := by omega
      simp [h1, h3, hy]
    · have hn : ¬ (1 < d ∧ d ≤ 3) := by omega
      simp only [if_neg h1, if_neg h3, hn, iff_false]
      decide

theorem daysRemaining_eq (expiry_date now : Int) :
    daysRemaining expiry_date now = ceilDiv (expiry_date - now) 86400000 := by
  have hday : (1000 * 60 * 60 * 24 : Int) = 86400000 := by decide
  simp only [daysRemaining, hday]

theorem daysRemaining_mono (e1 e2 now : Int) (h : e1 ≤ e2) :
    daysRemaining e1 now ≤ daysRemaining e2 now := by
  rw [daysRemaining_eq, daysRemaining_eq]
  have h2 := le_ceilDiv_mul (e2 - now) 86400000 (by decide)
  exact ceilDiv_le _ _ _ (by decide) (by omega)

theorem daysRemaining_nonneg (e now : Int) (h : now ≤ e) : 0 ≤ daysRemaining e now := by
  rw [daysRemaining_eq]
  have h2 := le_ceilDiv_mul (e - now) 86400000 (by decide)
  by_contra hcon
  have h3 : ceilDiv (e - now) 86400000 ≤ -1 := by omega
  have h4 : ceilDiv (e - now) 86400000 * 86400000 ≤ -86400000 := by nlinarith
  omega

/-! ## The claim on the scan window -/

/-- C14. For two items of the query result of a scan, the days_remaining of the first is
between 0 and 7, it is 0 exactly when the item expires at the scan time, such an item is
critical, and when the first item expires no later than the second its days_remaining is
no larger and its level is no less severe. -/
theorem window_days_and_monotone (now : Int) (db : Store) (it1 it2 : ExpiringItem)
    (h1 : it1 ∈ aggregate now db) (h2 : it2 ∈ aggregate now db) :
    0 ≤ (expiryAlert now it1).data.days_remaining ∧
      (expiryAlert now it1).data.days_remaining ≤ 7 ∧
      ((expiryAlert now it1).data.days_remaining = 0 ↔ it1.expiry_date = now) ∧
      (it1.expiry_date = now → (expiryAlert now it1).data.alert_level = "critical") ∧
      (it1.expiry_date ≤ it2.expiry_date →
        (expiryAlert now it1).data.days_remaining ≤
            (expiryAlert now it2).data.days_remaining ∧
          ((expiryAlert now it2).data.alert_level = "critical" →
            (expiryAlert now it1).data.alert_level = "critical") ∧
          ((expiryAlert now it2).data.alert_level = "warning" →
            (expiryAlert now it1).data.alert_level = "critical" ∨
              (expiryAlert now it1).data.alert_level = "warning")) := by
  have hw1 := ((mem_matchStage _ _ _).1 ((mem_aggregate _ _ _).1 h1).1)
  have hw2 := ((mem_matchStage _ _ _).1 ((mem_aggregate _ _ _).1 h2).1)
  have hseven : sevenDaysFromNow now = now + 7 * 86400000 := by
    unfold sevenDaysFromNow
    omega
  rw [hseven] at hw1 hw2
  have hge := hw1.2.2.1
  have hle := hw1.2.1
  have hd1 : (expiryAlert now it1).data.days_remaining = daysRemaining it1.expiry_date now := rfl
  have hd2 : (expiryAlert now it2).data.days_remaining = daysRemaining it2.expiry_date now := rfl
  have hl1 : (expiryAlert now it1).data.alert_level =
      alertLevel (daysRemaining it1.expiry_date now) := rfl
  have hl2 : (expiryAlert now it2).data.alert_level =
      alertLevel (daysRemaining it2.expiry_date now) := rfl
  rw [hd1, hd2, hl1, hl2]
  have hnn := daysRemaining_nonneg it1.expiry_date now hge
  have hlow := le_ceilDiv_mul (it1.expiry_date - now) 86400000 (by decide)
  have hzero : daysRemaining it1.expiry_date now = 0 ↔ it1.expiry_date = now := by
    constructor
    · intro h0
      rw [daysRemaining_eq] at h0
      rw [h0] at hlow
      omega
    · intro heq
      have hup : daysRemaining it1.expiry_date now ≤ 0 := by
        rw [daysRemaining_eq]
        exact ceilDiv_le _ _ 0 (by decide) (by omega)
      omega
  refine ⟨hnn, ?_, hzero, ?_, ?_⟩
  · rw [daysRemaining_eq]
    exact ceilDiv_le _ _ 7 (by decide) (by omega)
  · intro heq
    rw [alertLevel_eq_critical_iff, hzero.2 heq]
    decide
  · intro hord
    have hmono := daysRemaining_mono it1.expiry_date it2.expiry_date now hord
    refine ⟨hmono, ?_, ?_⟩
    · rw [alertLevel_eq_critical_iff, alertLevel_eq_critical_iff]
      omega
    · rw [alertLevel_eq_warning_iff, alertLevel_eq_critical_iff, alertLevel_eq_warning_iff]
      omega

/-- C14 at a concrete store: scan time 0, one record expiring at once and one after
300000000 milliseconds. -/
theorem window_days_and_monotone_witness :
    (expiryAlert 0 (sampleItem 0)).data.days_remaining ≤
      (expiryAlert 0 (sampleItem 300000000)).data.days_remaining :=
  ((window_days_and_monotone 0 sampleStore (sampleItem 0) (sampleItem 300000000)
    (by decide) (by decide)).2.2.2.2 (by decide)).1

/-! ## Lemmas on the error handling of the interval callback -/

theorem tryExpiryAlert_toResultItem (now : Int) (item : ExpiringItem) :
    tryExpiryAlert now item.toResultItem = .ok (expiryAlert now item) := rfl

theorem tryExpiryAlert_of_product (now : Int) (item : ResultItem) (h : item.product ≠ none) :
    ∃ p, tryExpiryAlert now item = .ok p := by
  cases hp : item.product with
  | none => exact absurd hp h
  | some product =>
    refine ⟨?_, ?_⟩
    · exact
        { room := expiryRoom item.user_id
          event := "expiry-alert"
          data :=
            { product := product.name
              expiry_date := item.expiry_date
              days_remaining := daysRemaining item.expiry_date now
              alert_level := alertLevel (daysRemaining item.expiry_date now) } }
    · simp only [tryExpiryAlert, hp]

theorem tryExpiryAlert_of_no_product (now : Int) (item : ResultItem) (h : item.product = none) :
    ∃ err, tryExpiryAlert now item = .error err :=
  ⟨"Cannot read properties of undefined (reading 'name')", by simp only [tryExpiryAlert, h]⟩

theorem forEachResult_ok_part (now : Int) (pre : List ResultItem)
    (alerts : List (Publish ExpiryAlertEvent))
    (h : List.Forall₂ (fun it p => tryExpiryAlert now it = .ok p) pre alerts)
    (rest : List ResultItem) (out : List (Publish ExpiryAlertEvent)) :
    forEachResult now (pre ++ rest) out = forEachResult now rest (out ++ alerts) := by
  induction h generalizing out with
  | nil => simp
  | @cons it p pre alerts hhead _ ih =>
    simp only [List.cons_append, forEachResult, hhead]
    have h2 := ih (out ++ [p])
    rw [List.append_assoc] at h2
    exact h2

theorem forall₂_tryExpiryAlert (now : Int) (pre : List ResultItem)
    (h : ∀ it, it ∈ pre → it.product ≠ none) :
    ∃ alerts, List.Forall₂ (fun it p => tryExpiryAlert now it = .ok p) pre alerts := by
  induction pre with
  | nil => exact ⟨[], List.Forall₂.nil⟩
  | cons it pre ih =>
    obtain ⟨p, hp⟩ := tryExpiryAlert_of_product now it (h it (List.mem_cons_self _ _))
    obtain ⟨alerts, ha⟩ := ih (fun x hx => h x (List.mem_cons_of_mem _ hx))
    exact ⟨p :: alerts, List.Forall₂.cons hp ha⟩

theorem forall₂_toResultItem (now : Int) (items : List ExpiringItem) :
    List.Forall₂ (fun it p => tryExpiryAlert now it = .ok p)
      (items.map ExpiringItem.toResultItem) (items.map (expiryAlert now)) := by
  induction items with
  | nil => exact List.Forall₂.nil
  | cons item items ih => exact List.Forall₂.cons (tryExpiryAlert_toResultItem now item) ih

theorem intervalTick_fst (s : ServerState) (now : Int)
    (query : Except String (List ResultItem)) : (intervalTick s now query).1 = s := rfl

theorem intervalTicks_append (s : ServerState)
    (l l' : List (Int × Except String (List ResultItem))) :
    intervalTicks s (l ++ l') = intervalTicks s l ++ intervalTicks s l' := by
  induction l with
  | nil => simp [intervalTicks]
  | cons t l ih =>
    obtain ⟨now, query⟩ := t
    show (intervalTick s now query).2 ++ intervalTicks s (l ++ l') =
      ((intervalTick s now query).2 ++ intervalTicks s l) ++ intervalTicks s l'
    rw [ih, List.append_assoc]

/-! ## The claim on failures of a scan cycle -/

/-- C13, counterexample. A record whose product has no name field does not make the cycle
fail: no error is caught, the record is alerted with an undefined product name, and so is
the record after it. -/
theorem missing_name_still_alerted :
    (intervalCallback 0 (.ok
        [(sampleItem 43200000).toResultItem,
          { toInventoryRecord := (sampleItem 86400000).toInventoryRecord
            product := some { _id := .str "p2", name := .undefined } },
          (sampleItem 172800000).toResultItem])).2 = none ∧
      (intervalCallback 0 (.ok
        [(sampleItem 43200000).toResultItem,
          { toInventoryRecord := (sampleItem 86400000).toInventoryRecord
            product := some { _id := .str "p2", name := .undefined } },
          (sampleItem 172800000).toResultItem])).1.map
          (fun p => (p.data.product, p.data.days_remaining)) =
        [(JsVal.str "Milk", 1), (JsVal.undefined, 1), (JsVal.str "Milk", 2)] := by
  decide

/-- C13, amended. A scan cycle never propagates an error. When the store query fails the
cycle emits nothing and the error is only logged. When processing fails at a record part-way
through the result (a record without a product object), the alerts of the records before it
have been emitted, one for each in order, none is emitted for the failing record or a later
one, and the error is only logged. A result whose records all have a product object is
alerted in full without an error, a record whose product has no name field included. No run
changes the server state, so later runs behave as if a failed run had not happened. -/
theorem scan_cycle_failure_contained (s : ServerState) (now : Int) :
    (∀ err, intervalCallback now (.error err) = ([], some err)) ∧
      (∀ pre bad post, (∀ it, it ∈ pre → it.product ≠ none) → bad.product = none →
        ∃ alerts err,
          intervalCallback now (.ok (pre ++ bad :: post)) = (alerts, some err) ∧
            List.Forall₂ (fun it p => tryExpiryAlert now it = .ok p) pre alerts) ∧
      (∀ items : List ExpiringItem,
        intervalCallback now (.ok (items.map ExpiringItem.toResultItem)) =
          (scanCycle now (.ok items), none)) ∧
      (∀ item : ExpiringItem, item.product.name = JsVal.undefined →
        tryExpiryAlert now item.toResultItem = .ok (expiryAlert now item) ∧
          (expiryAlert now item).data.product = JsVal.undefined) ∧
      (∀ query, (intervalTick s now query).1 = s) ∧
      (∀ query later next,
        intervalTick (intervalTick s now query).1 later next = intervalTick s later next) ∧
      (∀ err before after,
        intervalTicks s (before ++ (now, .error err) :: after) =
          intervalTicks s (before ++ after)) := by
  refine ⟨fun _ => rfl, ?_, ?_, ?_, fun _ => rfl, fun _ _ _ => rfl, ?_⟩
  · intro pre bad post hpre hbad
    obtain ⟨alerts, halerts⟩ := forall₂_tryExpiryAlert now pre hpre
    obtain ⟨err, herr⟩ := tryExpiryAlert_of_no_product now bad hbad
    refine ⟨alerts, err, ?_, halerts⟩
    simp only [intervalCallback]
    rw [forEachResult_ok_part now pre alerts halerts]
    simp only [forEachResult, herr, List.nil_append]
  · intro items
    simp only [intervalCallback]
    have h := forEachResult_ok_part now _ _ (forall₂_toResultItem now items) [] []
    rw [List.append_nil] at h
    rw [h, scanCycle_ok]
    simp [forEachResult]
  · intro item hname
    exact ⟨rfl, by simp [expiryAlert, hname]⟩
  · intro err before after
    rw [intervalTicks_append, intervalTicks_append]
    simp [intervalTicks, intervalTick, intervalCallback]

/-- C13, amended, at a concrete run: the second of three records has no product object, so
only the first record is alerted and the error is caught. -/
theorem scan_cycle_failure_contained_witness :
    ∃ alerts err,
      intervalCallback 0 (.ok ([(sampleItem 43200000).toResultItem] ++
          sampleBroken 86400000 :: [(sampleItem 172800000).toResultItem])) =
        (alerts, some err) ∧
      List.Forall₂ (fun it p => tryExpiryAlert 0 it = .ok p)
        [(sampleItem 43200000).toResultItem] alerts :=
  (scan_cycle_failure_contained ServerState.init 0).2.1
    [(sampleItem 43200000).toResultItem] (sampleBroken 86400000)
    [(sampleItem 172800000).toResultItem] (by decide) rfl

/-! ## Lemmas on the mock AI functions -/

theorem specCategory_mem (lowered : String) : specCategory lowered ∈ categories := by
  unfold specCategory
  split
  · rename_i g hg
    have hmem := List.mem_of_find?_eq_some hg
    simp only [specKeywordGroups, List.mem_cons, List.mem_singleton, List.not_mem_nil,
      or_false] at hmem
    rcases hmem with rfl | rfl | rfl | rfl <;> decide
  · decide

theorem categorizeProduct_congr (toLowerCase : String → String) (p q : Product) (n m : String)
    (hp : p.name = .str n) (hq : q.name = .str m) (h : toLowerCase m = toLowerCase n) :
    categorizeProduct toLowerCase q = categorizeProduct toLowerCase p := by
  simp only [categorizeProduct, hp, hq, h]

theorem categorizeProduct_eq_spec (toLowerCase : String → String) (p : Product) (n : String)
    (hp : p.name = .str n) :
    categorizeProduct toLowerCase p = .ok (specCategory (toLowerCase n)) := by
  have hdata : ∀ kw : String,
      includes (toLowerCase n) kw = decide (kw.data <:+: (toLowerCase n).data) := by
    intro kw
    rfl
  simp only [categorizeProduct, hp, specCategory, specKeywordGroups, List.find?, List.any,
    hdata, Bool.or_false, Bool.or_assoc]
  split_ifs with h1 h2 h3 h4
  · rw [h1]
  · rw [Bool.not_eq_true] at h1
    rw [h1, h2]
  · rw [Bool.not_eq_true] at h1 h2
    rw [h1, h2, h3]
  · rw [Bool.not_eq_true] at h1 h2 h3
    rw [h1, h2, h3, h4]
  · rw [Bool.not_eq_true] at h1 h2 h3 h4
    rw [h1, h2, h3, h4]

theorem specCategory_of_apple (lowered : String) (h : "apple".data <:+: lowered.data) :
    specCategory lowered = "Fruits & Vegetables" := by
  have hd : decide ("apple".data <:+: lowered.data) = true := decide_eq_true h
  simp only [specCategory, specKeywordGroups, List.find?, List.any, hd, Bool.true_or]

theorem specCategory_of_none (lowered : String)
    (h : ∀ g, g ∈ specKeywordGroups → ∀ kw, kw ∈ g.1 → ¬ kw.data <:+: lowered.data) :
    specCategory lowered = "Pantry & Dry Goods" := by
  have hfind : specKeywordGroups.find?
      (fun g => g.1.any (fun kw => decide (kw.data <:+: lowered.data))) = none := by
    rw [List.find?_eq_none]
    intro g hg
    simp only [List.any_eq_true, decide_eq_true_eq, not_exists, not_and]
    intro kw hkw
    exact h g hg kw hkw
  simp only [specCategory, hfind]

/-! ## The claim on categorizeProduct -/

/-- C16. On a product whose name is a string, categorizeProduct returns, without throwing,
the category of the first keyword group of the claim that has a keyword in the lower-cased
name, and Pantry and Dry Goods when no keyword occurs in it; the result is one of the ten
declared categories, which are the ten seeded ones; two names with the same lower-casing
get the same result; a name whose lower-casing has both apple and cake is a fruit or
vegetable. -/
theorem categorizeProduct_first_group (toLowerCase : String → String) (productData : Product)
    (n : String) (h : productData.name = .str n) :
    categorizeProduct toLowerCase productData = .ok (specCategory (toLowerCase n)) ∧
      specCategory (toLowerCase n) ∈ categories ∧
      categories.length = 10 ∧
      categories = seededCategories ∧
      (∀ q m, q.name = JsVal.str m → toLowerCase m = toLowerCase n →
        categorizeProduct toLowerCase q = categorizeProduct toLowerCase productData) ∧
      ("apple".data <:+: (toLowerCase n).data → "cake".data <:+: (toLowerCase n).data →
        categorizeProduct toLowerCase productData = .ok "Fruits & Vegetables") ∧
      ((∀ g, g ∈ specKeywordGroups → ∀ kw, kw ∈ g.1 → ¬ kw.data <:+: (toLowerCase n).data) →
        categorizeProduct toLowerCase productData = .ok "Pantry & Dry Goods") := by
  have hspec := categorizeProduct_eq_spec toLowerCase productData n h
  refine ⟨hspec, specCategory_mem _, rfl, rfl, ?_, ?_, ?_⟩
  · intro q m hq hm
    exact categorizeProduct_congr toLowerCase productData q n m h hq hm
  · intro happle _
    rw [hspec, specCategory_of_apple _ happle]
  · intro hnone
    rw [hspec, specCategory_of_none _ hnone]

/-- C16 at a concrete product: a name in mixed case with both apple and cake. -/
theorem categorizeProduct_first_group_witness :
    categorizeProduct asciiLowerCase { _id := .str "p1", name := .str "Apple CAKE" } =
        .ok (specCategory (asciiLowerCase "Apple CAKE")) ∧
      specCategory (asciiLowerCase "Apple CAKE") = "Fruits & Vegetables" ∧
      asciiLowerCase "Apple CAKE" = "apple cake" :=
  ⟨(categorizeProduct_first_group asciiLowerCase
    { _id := .str "p1", name := .str "Apple CAKE" } "Apple CAKE" rfl).1, by decide, by decide⟩

/-! ## Lemmas on generateSuggestions -/

theorem filterExpiringSoon_snd (parse : String → Option Int) (clock : Nat → Int)
    (l : List InventoryItem) (tick : Nat) :
    (filterExpiringSoon parse clock tick l).2 =
      tick + (l.filter (fun item => item.expiry_date.truthy)).length := by
  induction l generalizing tick with
  | nil => simp [filterExpiringSoon]
  | cons item rest ih =>
    by_cases ht : item.expiry_date.truthy = true
    · by_cases hk : isExpiringSoon parse (clock tick) item = true
      · simp only [filterExpiringSoon, ht, hk, if_true, ih, List.filter_cons_of_pos,
          List.length_cons]
        omega
      · simp only [filterExpiringSoon, ht, hk, if_true, if_false, ih, List.filter_cons_of_pos,
          List.length_cons, Bool.false_eq_true]
        omega
    · simp only [filterExpiringSoon, ht, if_false, ih, Bool.false_eq_true]
      simp [List.filter, ht]

theorem filterExpiringSoon_append (parse : String → Option Int) (clock : Nat → Int)
    (l l' : List InventoryItem) (tick : Nat) :
    (filterExpiringSoon parse clock tick (l ++ l')).1 =
      (filterExpiringSoon parse clock tick l).1 ++
        (filterExpiringSoon parse clock (filterExpiringSoon parse clock tick l).2 l').1 := by
  induction l generalizing tick with
  | nil => simp [filterExpiringSoon]
  | cons item rest ih =>
    by_cases ht : item.expiry_date.truthy = true
    · by_cases hk : isExpiringSoon parse (clock tick) item = true
      · simp only [List.cons_append, filterExpiringSoon, ht, hk, if_true]
        exact congrArg (fun l => item :: l) (ih _)
      · simp only [List.cons_append, filterExpiringSoon, ht, hk, if_true, if_false,
          Bool.false_eq_true]
        exact ih _
    · simp only [List.cons_append, filterExpiringSoon, ht, if_false, Bool.false_eq_true]
      exact ih _

theorem filterExpiringSoon_sublist (parse : String → Option Int) (clock : Nat → Int)
    (l : List InventoryItem) (tick : Nat) :
    (filterExpiringSoon parse clock tick l).1.Sublist l := by
  induction l generalizing tick with
  | nil => simp [filterExpiringSoon]
  | cons item rest ih =>
    by_cases ht : item.expiry_date.truthy = true
    · by_cases hk : isExpiringSoon parse (clock tick) item = true
      · simp only [filterExpiringSoon, ht, hk, if_true]
        exact (ih _).cons₂ _
      · simp only [filterExpiringSoon, ht, hk, if_true, if_false, Bool.false_eq_true]
        exact (ih _).cons _
    · simp only [filterExpiringSoon, ht, if_false, Bool.false_eq_true]
      exact (ih _).cons _

theorem isExpiringSoon_falsy (parse : String → Option Int) (today : Int) (item : InventoryItem)
    (h : ¬ item.expiry_date.truthy = true) : isExpiringSoon parse today item = false := by
  simp [isExpiringSoon, h]

theorem filterExpiringSoon_const (parse : String → Option Int) (clock : Nat → Int)
    (today : Int) (hclock : ∀ k, clock k = today) (l : List InventoryItem) (tick : Nat) :
    (filterExpiringSoon parse clock tick l).1 = l.filter (isExpiringSoon parse today) := by
  induction l generalizing tick with
  | nil => simp [filterExpiringSoon]
  | cons item rest ih =>
    by_cases ht : item.expiry_date.truthy = true
    · by_cases hk : isExpiringSoon parse today item = true
      · simp only [filterExpiringSoon, ht, hclock, hk, if_true, ih, List.filter_cons_of_pos]
      · simp only [filterExpiringSoon, ht, hclock, hk, if_true, if_false, ih,
          Bool.false_eq_true]
        rw [List.filter_cons_of_neg hk]
    · have hk := isExpiringSoon_falsy parse today item ht
      simp only [filterExpiringSoon, ht, if_false, ih, Bool.false_eq_true]
      rw [List.filter_cons_of_neg (by simp [hk])]

theorem mapExpiringSoon_getElem? (parse : String → Option Int) (clock : Nat → Int)
    (l : List InventoryItem) (tick j : Nat) :
    (mapExpiringSoon parse clock tick l)[j]? =
      (l[j]?).map (fun item =>
        { product := item.product.name
          expiry_date := item.expiry_date
          days_remaining := daysDiff parse (clock (tick + j)) item.expiry_date }) := by
  induction l generalizing tick j with
  | nil => simp [mapExpiringSoon]
  | cons item rest ih =>
    cases j with
    | zero => simp [mapExpiringSoon]
    | succ j =>
      simp only [mapExpiringSoon, List.getElem?_cons_succ, ih]
      have : tick + 1 + j = tick + (j + 1) := by omega
      rw [this]

theorem mapExpiringSoon_product (parse : String → Option Int) (clock : Nat → Int)
    (l : List InventoryItem) (tick : Nat) :
    (mapExpiringSoon parse clock tick l).map (fun e => e.product) =
      l.map (fun item => item.product.name) := by
  induction l generalizing tick with
  | nil => simp [mapExpiringSoon]
  | cons item rest ih => simp [mapExpiringSoon, ih]

theorem mapExpiringSoon_length (parse : String → Option Int) (clock : Nat → Int)
    (l : List InventoryItem) (tick : Nat) :
    (mapExpiringSoon parse clock tick l).length = l.length := by
  induction l generalizing tick with
  | nil => simp [mapExpiringSoon]
  | cons item rest ih => simp [mapExpiringSoon, ih]

theorem isExpiringSoon_iff (parse : String → Option Int) (today : Int) (item : InventoryItem) :
    isExpiringSoon parse today item = true ↔
      ∃ expiry : Int,
        ((∃ n : SafeInt, item.expiry_date = .num n ∧ n.val ≠ 0 ∧
              -8640000000000000 ≤ n.val ∧ n.val ≤ 8640000000000000 ∧ expiry = n.val) ∨
            (∃ str : String, item.expiry_date = .str str ∧ str ≠ "" ∧
              parse str = some expiry) ∨
            (item.expiry_date = .bool true ∧ expiry = 1)) ∧
          0 ≤ ⌈((expiry - today : Int) : ℚ) / ((86400000 : Int) : ℚ)⌉ ∧
          ⌈((expiry - today : Int) : ℚ) / ((86400000 : Int) : ℚ)⌉ ≤ 3 := by
  have hday : (1000 * 60 * 60 * 24 : Int) = 86400000 := by decide
  have hceil : ∀ a : Int, ⌈((a : Int) : ℚ) / ((86400000 : Int) : ℚ)⌉ = ceilDiv a 86400000 :=
    fun a => (ceilDiv_eq_ceil a 86400000 (by decide)).symm
  simp only [hceil]
  unfold isExpiringSoon daysDiff
  rw [hday]
  cases hv : item.expiry_date with
  | undefined => simp [JsVal.truthy]
  | null => simp [JsVal.truthy]
  | bool b =>
    cases b with
    | false => simp [JsVal.truthy]
    | true =>
      simp only [JsVal.truthy, toTime, Bool.not_true, Bool.false_eq_true, if_false, if_true,
        Option.map_some', decide_eq_true_eq]
      constructor
      · rintro ⟨h1, h2⟩
        exact ⟨1, Or.inr (Or.inr ⟨trivial, rfl⟩), h2, h1⟩
      · rintro ⟨expiry, h, h1, h2⟩
        rcases h with ⟨n, hn, _⟩ | ⟨str, hs, _⟩ | ⟨_, rfl⟩
        · cases hn
        · cases hs
        · exact ⟨h2, h1⟩
  | num n =>
    by_cases h0 : n.val = 0
    · simp only [JsVal.truthy, h0, bne_self_eq_false, Bool.not_false, if_true,
        Bool.false_eq_true, false_iff, not_exists, not_and]
      rintro expiry (⟨m, hm, hm0, _⟩ | ⟨str, hs, _⟩ | ⟨hb, _⟩)
      · cases hm
        exact absurd h0 hm0
      · cases hs
      · cases hb
    · have hne : (n.val != 0) = true := by simp [h0]
      by_cases hr : -8640000000000000 ≤ n.val ∧ n.val ≤ 8640000000000000
      · simp only [JsVal.truthy, hne, toTime, hr, and_self, Bool.not_true, Bool.false_eq_true,
          if_false, if_true, Option.map_some', decide_eq_true_eq]
        constructor
        · rintro ⟨h1, h2⟩
          exact ⟨n.val, Or.inl ⟨n, rfl, h0, hr.1, hr.2, rfl⟩, h2, h1⟩
        · rintro ⟨expiry, h, h1, h2⟩
          rcases h with ⟨m, hm, _, _, _, rfl⟩ | ⟨str, hs, _⟩ | ⟨hb, _⟩
          · cases hm
            exact ⟨h2, h1⟩
          · cases hs
          · cases hb
      · simp only [JsVal.truthy, hne, toTime, hr, Bool.not_true, Bool.false_eq_true, if_false,
          Option.map_none', false_iff, not_exists, not_and]
        rintro expiry (⟨m, hm, _, hlo, hhi, _⟩ | ⟨str, hs, _⟩ | ⟨hb, _⟩)
        · cases hm
          exact absurd ⟨hlo, hhi⟩ hr
        · cases hs
        · cases hb
  | str t =>
    by_cases h0 : t = ""
    · simp only [JsVal.truthy, h0, bne_self_eq_false, Bool.not_false, if_true,
        Bool.false_eq_true, false_iff, not_exists, not_and]
      rintro expiry (⟨m, hm, _⟩ | ⟨str, hs, hne, _⟩ | ⟨hb, _⟩)
      · cases hm
      · cases hs
        exact absurd rfl hne
      · cases hb
    · have hne : (t != "") = true := by simp [h0]
      cases hp : parse t with
      | none =>
        simp only [JsVal.truthy, hne, toTime, hp, Bool.not_true, Bool.false_eq_true, if_false,
          Option.map_none', false_iff, not_exists, not_and]
        rintro expiry (⟨m, hm, _⟩ | ⟨str, hs, _, hps⟩ | ⟨hb, _⟩)
        · cases hm
        · cases hs
          rw [hp] at hps
          cases hps
        · cases hb
      | some ms =>
        simp only [JsVal.truthy, hne, toTime, hp, Bool.not_true, Bool.false_eq_true, if_false,
          Option.map_some', decide_eq_true_eq]
        constructor
        · rintro ⟨h1, h2⟩
          exact ⟨ms, Or.inr (Or.inl ⟨t, rfl, h0, hp⟩), h2, h1⟩
        · rintro ⟨expiry, h, h1, h2⟩
          rcases h with ⟨m, hm, _⟩ | ⟨str, hs, _, hps⟩ | ⟨hb, _⟩
          · cases hm
          · cases hs
            rw [hp] at hps
            cases hps
            exact ⟨h2, h1⟩
          · cases hb

/-! ## The claim on generateSuggestions -/

/-- C15. The result of generateSuggestions lists under expiring_soon, in inventory order,
exactly the inventory items with a truthy expiry_date whose day difference, the ceiling of
(expiry - today) over one day for the reading today that the clock gives when the item is
tested, is between 0 and 3: the selection of a part of the inventory extended by the next
item is the selection of that part followed by the item when it passes this test; items
without expiry_date are left out. It lists under
low_stock exactly the items with quantity at most 2, in inventory order, and gives one
recipe whose ingredients are the product names of the first min(3, n) entries of
expiring_soon. -/
theorem generateSuggestions_lists (parse : String → Option Int) (clock : Nat → Int)
    (inventory : List InventoryItem) :
    (∀ j : Nat, (generateSuggestions parse clock inventory).expiring_soon[j]? =
        ((filterExpiringSoon parse clock 0 inventory).1[j]?).map (fun item =>
          { product := item.product.name
            expiry_date := item.expiry_date
            days_remaining :=
              daysDiff parse
                (clock ((inventory.filter (fun item => item.expiry_date.truthy)).length + j))
                item.expiry_date })) ∧
      (filterExpiringSoon parse clock 0 inventory).1.Sublist inventory ∧
      (filterExpiringSoon parse clock 0 []).1 = [] ∧
      (∀ pre item post, inventory = pre ++ item :: post →
        (filterExpiringSoon parse clock 0 (pre ++ [item])).1 =
            (filterExpiringSoon parse clock 0 pre).1 ++
              (if isExpiringSoon parse
                    (clock (pre.filter (fun item => item.expiry_date.truthy)).length) item = true
                then [item] else []) ∧
          (filterExpiringSoon parse clock 0 inventory).1 =
            (filterExpiringSoon parse clock 0 (pre ++ [item])).1 ++
              (filterExpiringSoon parse clock
                ((pre ++ [item]).filter (fun item => item.expiry_date.truthy)).length post).1) ∧
      (∀ today item, isExpiringSoon parse today item = true ↔
        ∃ expiry : Int,
          ((∃ n : SafeInt, item.expiry_date = .num n ∧ n.val ≠ 0 ∧
                -8640000000000000 ≤ n.val ∧ n.val ≤ 8640000000000000 ∧ expiry = n.val) ∨
              (∃ str : String, item.expiry_date = .str str ∧ str ≠ "" ∧
                parse str = some expiry) ∨
              (item.expiry_date = .bool true ∧ expiry = 1)) ∧
            0 ≤ ⌈((expiry - today : Int) : ℚ) / ((86400000 : Int) : ℚ)⌉ ∧
            ⌈((expiry - today : Int) : ℚ) / ((86400000 : Int) : ℚ)⌉ ≤ 3) ∧
      (∀ today, (∀ k, clock k = today) → ∀ item,
        item ∈ (filterExpiringSoon parse clock 0 inventory).1 ↔
          item ∈ inventory ∧ isExpiringSoon parse today item = true) ∧
      (generateSuggestions parse clock inventory).low_stock =
        (inventory.filter (fun item => decide (item.quantity ≤ 2))).map (fun item =>
          { product := item.product.name, current_quantity := item.quantity,
            suggestion := "Consider restocking soon" }) ∧
      (inventory.filter (fun item => decide (item.quantity ≤ 2))).Sublist inventory ∧
      (∀ item, item ∈ inventory.filter (fun item => decide (item.quantity ≤ 2)) ↔
        item ∈ inventory ∧ item.quantity ≤ 2) ∧
      (∃ recipe, (generateSuggestions parse clock inventory).recipe_suggestions = [recipe] ∧
        recipe.ingredients =
          ((generateSuggestions parse clock inventory).expiring_soon.take 3).map
            (fun e => e.product) ∧
        recipe.ingredients.length =
          min 3 (generateSuggestions parse clock inventory).expiring_soon.length ∧
        recipe.ingredients.length ≤ 3 ∧
        ∀ name, name ∈ recipe.ingredients →
          ∃ e, e ∈ (generateSuggestions parse clock inventory).expiring_soon ∧
            e.product = name) := by
  have hprod := mapExpiringSoon_product parse clock
    (filterExpiringSoon parse clock 0 inventory).1 (filterExpiringSoon parse clock 0 inventory).2
  have hlen := mapExpiringSoon_length parse clock
    (filterExpiringSoon parse clock 0 inventory).1 (filterExpiringSoon parse clock 0 inventory).2
  refine ⟨?_, filterExpiringSoon_sublist _ _ _ _, rfl, ?_, isExpiringSoon_iff parse, ?_, rfl,
    List.filter_sublist _, ?_, ?_⟩
  · intro j
    simp only [generateSuggestions]
    rw [mapExpiringSoon_getElem?, filterExpiringSoon_snd, Nat.zero_add]
  · intro pre item post hinv
    subst hinv
    constructor
    · rw [filterExpiringSoon_append, filterExpiringSoon_snd, Nat.zero_add]
      congr 1
      by_cases ht : item.expiry_date.truthy = true
      · by_cases hk : isExpiringSoon parse
            (clock (pre.filter (fun item => item.expiry_date.truthy)).length) item = true
        · simp only [filterExpiringSoon, ht, hk, if_true]
        · simp only [filterExpiringSoon, ht, hk, if_true, if_false, Bool.false_eq_true]
      · have hk := isExpiringSoon_falsy parse
          (clock (pre.filter (fun item => item.expiry_date.truthy)).length) item ht
        simp only [filterExpiringSoon, ht, hk, if_false, Bool.false_eq_true]
    · have hsplit : pre ++ item :: post = (pre ++ [item]) ++ post := by simp
      rw [hsplit, filterExpiringSoon_append, filterExpiringSoon_snd, Nat.zero_add]
  · intro today hclock item
    rw [filterExpiringSoon_const parse clock today hclock, List.mem_filter]
  · intro item
    simp [List.mem_filter]
  · refine ⟨_, rfl, ?_, ?_, ?_, ?_⟩
    · simp only [generateSuggestions]
      rw [List.map_take, List.map_take, hprod]
    · simp only [generateSuggestions, List.length_map, List.length_take, hlen]
    · simp only [generateSuggestions, List.length_map, List.length_take]
      exact Nat.min_le_left _ _
    · intro name hname
      simp only [generateSuggestions, List.mem_map] at hname ⊢
      obtain ⟨item, hitem, rfl⟩ := hname
      have hmem : item.product.name ∈
          (mapExpiringSoon parse clock (filterExpiringSoon parse clock 0 inventory).2
            (filterExpiringSoon parse clock 0 inventory).1).map (fun e => e.product) := by
        rw [hprod]
        exact List.mem_map.2 ⟨item, List.mem_of_mem_take hitem, rfl⟩
      obtain ⟨e, he, hep⟩ := List.mem_map.1 hmem
      exact ⟨e, he, hep⟩

/-- C15 at a concrete inventory, with the clock reading 0, 1, 2 and so on: milk expiring two
days after time 0 and eggs expiring at millisecond 1 are selected, rice without expiry_date
and fish with an empty expiry_date are not; the eggs are the second entry, tested against
the reading 1 and listed with the day difference of the reading 3. -/
theorem generateSuggestions_lists_witness :
    (generateSuggestions sampleParse sampleClock
        [sampleStock "Milk" (.str "1970-01-03") 1, sampleStock "Rice" .undefined 5,
          sampleStock "Egg" (.num 1) 2, sampleStock "Fish" (.str "") 9]).expiring_soon[1]? =
      some { product := .str "Egg", expiry_date := .num 1, days_remaining := some 0 } :=
  ((generateSuggestions_lists sampleParse sampleClock
    [sampleStock "Milk" (.str "1970-01-03") 1, sampleStock "Rice" .undefined 5,
      sampleStock "Egg" (.num 1) 2, sampleStock "Fish" (.str "") 9]).1 1).trans (by decide)

end GrocerStock
